import Mathlib

/-!
# url-shortener-sls: the `shorten` handler

A shallow embedding of `src/shorten/main.go`.  The handler decodes a JSON body,
looks the long URL up in the DynamoDB table `Urls` with a filtered scan, mints a
ULID and writes a record when the lookup produced no short identifier, and
answers with an API-gateway response.

The calls that leave the program (`json.Unmarshal`, the AWS session, the
expression builder, `Scan`, `UnmarshalMap`, `PutItem`, the clock and the random
source) are modelled explicitly: the JSON decoder by its documented behaviour on
the struct `RequestBody`, the table by its records and a log of the operations
issued against it, and the outcome of each remaining call by a field of `Env`.
-/

namespace Shorten

/-! ## `encoding/json` on the request body -/

/-- A JSON value as the decoder sees it.  A number keeps no value: the handler
decodes into a string field, where every number is a type error. -/
inductive Json where
  | null
  | bool (b : Bool)
  | number
  | string (s : String)
  | array (elems : List Json)
  | object (members : List (String × Json))

deriving instance DecidableEq for Except

/-- Result of a parsing step: a message, or a value and the unread input. -/
abbrev Parse (α : Type) := Except String (α × List Char)

/-- The four characters `encoding/json` skips between tokens. -/
def isSpace (c : Char) : Bool :=
  c == ' ' || c == '\t' || c == '\r' || c == '\n'

/-- Drop leading JSON white space. -/
def skipSpace : List Char → List Char
  | [] => []
  | c :: cs => if isSpace c then skipSpace cs else c :: cs

/-- The way the scanner quotes the offending character in a message. -/
def quoteChar (c : Char) : String :=
  if c == '\'' then "'\\''" else "'" ++ String.singleton c ++ "'"

/-- Message of a `*json.SyntaxError` raised at character `c`. -/
def syntaxError (c : Char) (context : String) : String :=
  "invalid character " ++ quoteChar c ++ " " ++ context

/-- Message of the syntax error raised when the input stops too early. -/
def unexpectedEnd : String := "unexpected end of JSON input"

/-- Value of a hexadecimal digit. -/
def hexValue (c : Char) : Option Nat :=
  if '0' ≤ c ∧ c ≤ '9' then some (c.toNat - '0'.toNat)
  else if 'a' ≤ c ∧ c ≤ 'f' then some (c.toNat - 'a'.toNat + 10)
  else if 'A' ≤ c ∧ c ≤ 'F' then some (c.toNat - 'A'.toNat + 10)
  else none

/-- The four hexadecimal digits after `\u`, as a UTF-16 code unit. -/
def hex4 : List Char → Parse Nat
  | a :: b :: c :: d :: rest =>
    match hexValue a, hexValue b, hexValue c, hexValue d with
    | some x, some y, some z, some w => .ok (((x * 16 + y) * 16 + z) * 16 + w, rest)
    | none, _, _, _ => .error (syntaxError a "in \\u hexadecimal character escape")
    | _, none, _, _ => .error (syntaxError b "in \\u hexadecimal character escape")
    | _, _, none, _ => .error (syntaxError c "in \\u hexadecimal character escape")
    | _, _, _, none => .error (syntaxError d "in \\u hexadecimal character escape")
  | a :: b :: c :: [] =>
    match hexValue a, hexValue b, hexValue c with
    | some _, some _, some _ => .error unexpectedEnd
    | none, _, _ => .error (syntaxError a "in \\u hexadecimal character escape")
    | _, none, _ => .error (syntaxError b "in \\u hexadecimal character escape")
    | _, _, none => .error (syntaxError c "in \\u hexadecimal character escape")
  | a :: b :: [] =>
    match hexValue a, hexValue b with
    | some _, some _ => .error unexpectedEnd
    | none, _ => .error (syntaxError a "in \\u hexadecimal character escape")
    | _, none => .error (syntaxError b "in \\u hexadecimal character escape")
  | a :: [] =>
    match hexValue a with
    | some _ => .error unexpectedEnd
    | none => .error (syntaxError a "in \\u hexadecimal character escape")
  | [] => .error unexpectedEnd

/-- The replacement character written for an unpaired surrogate. -/
def replacementChar : Char := Char.ofNat 0xFFFD

/-- The character a `\u` escape with code unit `u` denotes, looking at the
following input for the low half of a surrogate pair; also says whether that
second escape is part of the character. -/
def escapedChar (u : Nat) (rest : List Char) : Char × Bool :=
  if 0xD800 ≤ u ∧ u < 0xE000 then
    match rest with
    | '\\' :: 'u' :: more =>
      match hex4 more with
      | .ok (v, _) =>
        if u < 0xDC00 ∧ 0xDC00 ≤ v ∧ v < 0xE000 then
          (Char.ofNat ((u - 0xD800) * 0x400 + (v - 0xDC00) + 0x10000), true)
        else (replacementChar, false)
      | .error _ => (replacementChar, false)
    | _ => (replacementChar, false)
  else (Char.ofNat u, false)

/-- The character a one-letter escape denotes. -/
def simpleEscape (e : Char) : Option Char :=
  if e == '"' then some '"'
  else if e == '\\' then some '\\'
  else if e == '/' then some '/'
  else if e == 'b' then some (Char.ofNat 8)
  else if e == 'f' then some (Char.ofNat 12)
  else if e == 'n' then some '\n'
  else if e == 'r' then some '\r'
  else if e == 't' then some '\t'
  else none

/-- What the next characters of a string literal amount to. -/
inductive StringStep where
  | closed (rest : List Char)
  | char (ch : Char) (rest : List Char)
  | invalid (message : String)

/-- Read the next item of a string literal: its closing quote, a plain
character or an escape. -/
def stringStep : List Char → StringStep
  | [] => .invalid unexpectedEnd
  | c :: cs =>
    if c == '"' then .closed cs
    else if c == '\\' then
      match cs with
      | [] => .invalid unexpectedEnd
      | e :: rest =>
        if e == 'u' then
          match hex4 rest with
          | .error m => .invalid m
          | .ok (u, rest1) =>
            match escapedChar u rest1 with
            | (ch, false) => .char ch rest1
            | (ch, true) => .char ch (rest1.drop 6)
        else
          match simpleEscape e with
          | some ch => .char ch rest
          | none => .invalid (syntaxError e "in string escape code")
    else if c.toNat < 0x20 then .invalid (syntaxError c "in string literal")
    else .char c cs

/-- A string literal after its opening quote: the decoded text and the input
after the closing quote.  `fuel` bounds the number of steps; one more than the
number of characters left is enough (`parseString_fuel`). -/
def parseString : Nat → List Char → List Char → Parse String
  | 0, _, _ => .error unexpectedEnd
  | fuel + 1, acc, cs =>
    match stringStep cs with
    | .closed rest => .ok (String.mk acc.reverse, rest)
    | .char ch rest => parseString fuel (ch :: acc) rest
    | .invalid m => .error m

/-- Drop leading decimal digits. -/
def skipDigits : List Char → List Char
  | [] => []
  | c :: cs => if c.isDigit then skipDigits cs else c :: cs

/-- Drop the sign of an exponent, if there is one. -/
def skipSign : List Char → List Char
  | [] => []
  | s :: more => if s == '+' || s == '-' then more else s :: more

/-- The exponent part of a number, if one starts here. -/
def parseExponent : List Char → Parse Unit
  | c :: cs =>
    if c == 'e' || c == 'E' then
      match skipSign cs with
      | [] => .error unexpectedEnd
      | d :: more =>
        if d.isDigit then .ok ((), skipDigits more)
        else .error (syntaxError d "in exponent of numeric literal")
    else .ok ((), c :: cs)
  | [] => .ok ((), [])

/-- The fraction and exponent parts of a number, if they start here. -/
def parseFraction : List Char → Parse Unit
  | c :: cs =>
    if c == '.' then
      match cs with
      | [] => .error unexpectedEnd
      | d :: more =>
        if d.isDigit then parseExponent (skipDigits more)
        else .error (syntaxError d "after decimal point in numeric literal")
    else parseExponent (c :: cs)
  | [] => .ok ((), [])

/-- A number after its optional minus sign. -/
def parseDigits : List Char → Parse Unit
  | [] => .error unexpectedEnd
  | c :: cs =>
    if c == '0' then parseFraction cs
    else if c.isDigit then parseFraction (skipDigits cs)
    else .error (syntaxError c "in numeric literal")

/-- The rest of a literal name whose first letter was read: every character of
`expected` has to follow. -/
def parseLiteral (name : String) : List Char → List Char → Parse Unit
  | [], rest => .ok ((), rest)
  | _ :: _, [] => .error unexpectedEnd
  | e :: es, c :: cs =>
    if c == e then parseLiteral name es cs
    else .error (syntaxError c
      ("in literal " ++ name ++ " (expecting " ++ quoteChar e ++ ")"))

/-- A value that is neither an object nor an array, its first character `c`
already read: a string, a number or one of the three literal names. -/
def parseScalar (c : Char) (cs : List Char) : Parse Json :=
  if c == '"' then
    match parseString (cs.length + 1) [] cs with
    | .error m => .error m
    | .ok (s, rest) => .ok (Json.string s, rest)
  else if c == '-' then
    match parseDigits cs with
    | .error m => .error m
    | .ok (_, rest) => .ok (Json.number, rest)
  else if c.isDigit then
    match parseDigits (c :: cs) with
    | .error m => .error m
    | .ok (_, rest) => .ok (Json.number, rest)
  else if c == 't' then
    match parseLiteral "true" ['r', 'u', 'e'] cs with
    | .error m => .error m
    | .ok (_, rest) => .ok (Json.bool true, rest)
  else if c == 'f' then
    match parseLiteral "false" ['a', 'l', 's', 'e'] cs with
    | .error m => .error m
    | .ok (_, rest) => .ok (Json.bool false, rest)
  else if c == 'n' then
    match parseLiteral "null" ['u', 'l', 'l'] cs with
    | .error m => .error m
    | .ok (_, rest) => .ok (Json.null, rest)
  else .error (syntaxError c "looking for beginning of value")

mutual

/-- One JSON value; leading white space is skipped. -/
def parseValue : Nat → List Char → Parse Json
  | 0, _ => .error unexpectedEnd
  | fuel + 1, input =>
    match skipSpace input with
    | [] => .error unexpectedEnd
    | c :: cs =>
      if c == '{' then
        match skipSpace cs with
        | [] => .error unexpectedEnd
        | d :: ds =>
          if d == '}' then .ok (Json.object [], ds)
          else
            match parseMembers fuel (d :: ds) with
            | .error m => .error m
            | .ok (ms, rest) => .ok (Json.object ms, rest)
      else if c == '[' then
        match skipSpace cs with
        | [] => .error unexpectedEnd
        | d :: ds =>
          if d == ']' then .ok (Json.array [], ds)
          else
            match parseElements fuel (d :: ds) with
            | .error m => .error m
            | .ok (es, rest) => .ok (Json.array es, rest)
      else parseScalar c cs

/-- The elements of a non-empty array up to and including the closing bracket. -/
def parseElements : Nat → List Char → Parse (List Json)
  | 0, _ => .error unexpectedEnd
  | fuel + 1, input =>
    match parseValue fuel input with
    | .error m => .error m
    | .ok (v, rest) =>
      match skipSpace rest with
      | [] => .error unexpectedEnd
      | c :: cs =>
        if c == ']' then .ok ([v], cs)
        else if c == ',' then
          match parseElements fuel cs with
          | .error m => .error m
          | .ok (vs, rest1) => .ok (v :: vs, rest1)
        else .error (syntaxError c "after array element")

/-- The members of a non-empty object up to and including the closing brace. -/
def parseMembers : Nat → List Char → Parse (List (String × Json))
  | 0, _ => .error unexpectedEnd
  | fuel + 1, input =>
    match skipSpace input with
    | [] => .error unexpectedEnd
    | q :: afterQuote =>
      if q == '"' then
        match parseString (afterQuote.length + 1) [] afterQuote with
        | .error m => .error m
        | .ok (key, rest) =>
          match skipSpace rest with
          | [] => .error unexpectedEnd
          | colon :: afterColon =>
            if colon == ':' then
              match parseValue fuel afterColon with
              | .error m => .error m
              | .ok (v, rest1) =>
                match skipSpace rest1 with
                | [] => .error unexpectedEnd
                | c :: cs =>
                  if c == '}' then .ok ([(key, v)], cs)
                  else if c == ',' then
                    match parseMembers fuel cs with
                    | .error m => .error m
                    | .ok (ms, rest2) => .ok ((key, v) :: ms, rest2)
                  else .error (syntaxError c "after object key:value pair")
            else .error (syntaxError colon "after object key")
      else .error (syntaxError q "looking for beginning of object key string")

end

/-- A whole document: one value with nothing but white space after it.  The
fuel is twice the length of the text, which is more than any parse uses
(`parseValue_fuel`).  The depth of nesting is not bounded. -/
def parseJson (text : String) : Except String Json :=
  match parseValue (2 * text.data.length + 2) text.data with
  | .error m => .error m
  | .ok (v, rest) =>
    match skipSpace rest with
    | [] => .ok v
    | c :: _ => .error (syntaxError c "after top-level value")

/-- Go type `RequestBody`: the long URL, read from the member `url`. -/
structure RequestBody where
  LongUrl : String
  deriving DecidableEq, Repr

/-- Go type `ResponseBody`.  The handler declares it and never builds one. -/
structure ResponseBody where
  ShortUrl : String
  deriving DecidableEq, Repr

/-- Whether an object key names the field tagged `url`: the decoder accepts the
tag itself and any other capitalisation of it. -/
def matchesUrlField (key : String) : Bool :=
  key.data.map Char.toLower == "url".data

/-- Message of the `*json.UnmarshalTypeError` for a member `url` that holds
neither a string nor null. -/
def fieldTypeError (value : String) : String :=
  "json: cannot unmarshal " ++ value ++ " into Go struct field RequestBody.url of type string"

/-- Message of the `*json.UnmarshalTypeError` for a document that is neither an
object nor null. -/
def valueTypeError (value : String) : String :=
  "json: cannot unmarshal " ++ value ++ " into Go value of type main.RequestBody"

/-- Store the members of an object into the struct, in order.  A string sets
the field, null leaves it, any other value is a type error; the first error is
kept while the remaining members are still read. -/
def decodeMembers : List (String × Json) → RequestBody → Option String →
    RequestBody × Option String
  | [], v, saved => (v, saved)
  | (key, value) :: rest, v, saved =>
    if matchesUrlField key then
      match value with
      | .string s => decodeMembers rest { v with LongUrl := s } saved
      | .null => decodeMembers rest v saved
      | .bool _ => decodeMembers rest v (saved.orElse fun _ => some (fieldTypeError "bool"))
      | .number => decodeMembers rest v (saved.orElse fun _ => some (fieldTypeError "number"))
      | .array _ => decodeMembers rest v (saved.orElse fun _ => some (fieldTypeError "array"))
      | .object _ => decodeMembers rest v (saved.orElse fun _ => some (fieldTypeError "object"))
    else decodeMembers rest v saved

/-- Go `json.Unmarshal(data, &v)` for `v` of type `RequestBody`: the document is
checked as a whole first, then stored into `v`. -/
def jsonUnmarshal (data : String) (v : RequestBody) : Except String RequestBody :=
  match parseJson data with
  | .error m => .error m
  | .ok (.object members) =>
    match decodeMembers members v none with
    | (v1, none) => .ok v1
    | (_, some m) => .error m
  | .ok .null => .ok v
  | .ok (.bool _) => .error (valueTypeError "bool")
  | .ok .number => .error (valueTypeError "number")
  | .ok (.string _) => .error (valueTypeError "string")
  | .ok (.array _) => .error (valueTypeError "array")

/-! ## The table `Urls` -/

/-- Go constant `TABLE`. -/
def TABLE : String := "Urls"

/-- Go type `Item`: one record of the table. -/
structure Item where
  LongUrl : String
  ShortUrl : String
  deriving DecidableEq, Repr

/-- Primary key of the table.  The table is declared where the service is
deployed, not in the handler; a table that accepts the handler's records has its
key among their two attributes. -/
inductive KeySchema where
  | longUrl
  | shortUrl
  | longAndShortUrl
  deriving DecidableEq, Repr

/-- Whether two records have the same primary key. -/
def KeySchema.sameKey : KeySchema → Item → Item → Bool
  | .longUrl, a, b => a.LongUrl == b.LongUrl
  | .shortUrl, a, b => a.ShortUrl == b.ShortUrl
  | .longAndShortUrl, a, b => a.LongUrl == b.LongUrl && a.ShortUrl == b.ShortUrl

/-- An operation issued against the table. -/
inductive StoreCall where
  | scan (tableName : String) (longUrl : String)
  | putItem (tableName : String) (item : Item)
  deriving DecidableEq, Repr

/-- The DynamoDB service as one invocation sees it: the records of the table
and the operations issued so far, oldest first. -/
structure DynamoDB where
  keySchema : KeySchema
  items : List Item
  calls : List StoreCall
  deriving DecidableEq, Repr

/-- What the world outside the handler does during one invocation: the error,
if any, of each fallible call, the clock and the random bytes. -/
structure Env where
  /-- Error of `session.NewSession()`. -/
  sessionErr : Option String
  /-- Error of the expression builder's `Build()`. -/
  buildErr : Option String
  /-- Error of `svc.Scan`. -/
  scanErr : Option String
  /-- Error of `dynamodbattribute.UnmarshalMap` on the record found. -/
  unmarshalErr : Option String
  /-- Error of `svc.PutItem`. -/
  putErr : Option String
  /-- Milliseconds since the epoch, `ulid.Timestamp(time.Now())`. -/
  now : Nat
  /-- The ten bytes read from the seeded random source, as a number. -/
  entropy : Nat
  deriving DecidableEq, Repr

/-- Records the filter `LongUrl = url` keeps. -/
def matching (url : String) (items : List Item) : List Item :=
  items.filter fun r => r.LongUrl == url

/-- Go `svc.Scan(params)` with the filter `LongUrl = url` on `TABLE`: logs the
call and yields the matching records, all of them in one page, or the service's
error. -/
def Scan (env : Env) (url : String) (svc : DynamoDB) : Except String (List Item) × DynamoDB :=
  let svc1 := { svc with calls := svc.calls ++ [StoreCall.scan TABLE url] }
  match env.scanErr with
  | some e => (.error e, svc1)
  | none => (.ok (matching url svc.items), svc1)

/-- Go `svc.PutItem(input)` on `TABLE`: logs the call; when the service accepts
it the record is stored, replacing the record with the same primary key. -/
def PutItem (env : Env) (item : Item) (svc : DynamoDB) : Option String × DynamoDB :=
  let svc1 := { svc with calls := svc.calls ++ [StoreCall.putItem TABLE item] }
  match env.putErr with
  | some e => (some e, svc1)
  | none =>
    (none, { svc1 with
      items := (svc.items.filter fun r => !svc.keySchema.sameKey item r) ++ [item] })

/-! ## ULID -/

/-- Largest timestamp a ULID holds, 2^48 - 1 milliseconds. -/
def maxTime : Nat := 281474976710655

/-- Crockford's base 32 alphabet. -/
def Encoding : List Char := "0123456789ABCDEFGHJKMNPQRSTVWXYZ".data

/-- The `n` lowest base 32 digits of `v`, most significant first. -/
def base32 : Nat → Nat → List Char
  | 0, _ => []
  | n + 1, v => Encoding.getD (v / 32 ^ n % 32) '0' :: base32 n v

/-- Text of the ULID with timestamp `ms` and entropy `e`: ten characters for the
48 bits of time, sixteen for the 80 bits of entropy. -/
def ulidString (ms e : Nat) : String :=
  String.mk (base32 10 ms ++ base32 16 (e % 2 ^ 80))

/-- Go `generateUlid`.  `ulid.MustNew` panics on a timestamp past `maxTime`;
the panic is the error case. -/
def generateUlid (env : Env) : Except String String :=
  if env.now > maxTime then .error "ulid: time too big"
  else .ok (ulidString env.now env.entropy)

/-! ## The handler -/

/-- Go `findByLongUrl`: the record whose `LongUrl` is `url`, the zero record
when there is none, an error when there are several or a call fails. -/
def findByLongUrl (env : Env) (url : String) (svc : DynamoDB) :
    (Item × Option String) × DynamoDB :=
  let item : Item := { LongUrl := "", ShortUrl := "" }
  match env.buildErr with
  | some err => ((item, some err), svc)
  | none =>
    match Scan env url svc with
    | (.error err, svc1) => ((item, some err), svc1)
    | (.ok result, svc1) =>
      if result.length > 1 then ((item, some "Found more than one entry"), svc1)
      else
        match result with
        | [] => ((item, none), svc1)
        | first :: _ =>
          match env.unmarshalErr with
          | some err => ((item, some err), svc1)
          | none => ((first, none), svc1)

/-- Go `putItem`: write the record to `TABLE`.  The source discards the error of
`MarshalMap`, so the only error is that of `PutItem`. -/
def putItem (env : Env) (item : Item) (svc : DynamoDB) : Option String × DynamoDB :=
  PutItem env item svc

/-- The fields of `events.APIGatewayProxyRequest` a client fills in. -/
structure Request where
  Resource : String := ""
  Path : String := ""
  HTTPMethod : String := ""
  Headers : List (String × String) := []
  Body : String := ""
  IsBase64Encoded : Bool := false
  deriving DecidableEq, Repr

/-- Go type `Response`, an `events.APIGatewayProxyResponse`.  A field the
handler leaves out has its zero value. -/
structure Response where
  StatusCode : Int := 0
  Headers : List (String × String) := []
  MultiValueHeaders : List (String × List String) := []
  Body : String := ""
  IsBase64Encoded : Bool := false
  deriving DecidableEq, Repr

/-- How an invocation ends: with the two values Go returns and the service as
the invocation left it, or in a panic. -/
inductive Outcome where
  | returned (response : Response) (err : Option String) (svc : DynamoDB)
  | panicked (message : String) (svc : DynamoDB)
  deriving DecidableEq, Repr

/-- Go `Handler`. -/
def Handler (env : Env) (svc : DynamoDB) (request : Request) : Outcome :=
  let requestBody : RequestBody := { LongUrl := "" }
  match jsonUnmarshal request.Body requestBody with
  | .error err => .returned { Body := err, StatusCode := 404 } none svc
  | .ok requestBody =>
    match env.sessionErr with
    | some err => .panicked err svc
    | none =>
      match findByLongUrl env requestBody.LongUrl svc with
      | ((_, some err), svc1) => .returned { Body := err, StatusCode := 404 } none svc1
      | ((item, none), svc1) =>
        if item.ShortUrl = "" then
          match generateUlid env with
          | .error p => .panicked p svc1
          | .ok id =>
            let item : Item := { LongUrl := requestBody.LongUrl, ShortUrl := id }
            match putItem env item svc1 with
            | (some err, svc2) => .returned { Body := err, StatusCode := 404 } none svc2
            | (none, svc2) =>
              .returned
                { Body := item.ShortUrl
                  StatusCode := 200
                  IsBase64Encoded := false
                  Headers := [("Content-Type", "application/json")] } none svc2
        else
          .returned
            { Body := item.ShortUrl
              StatusCode := 200
              IsBase64Encoded := false
              Headers := [("Content-Type", "application/json")] } none svc1

/-! ## Vocabulary of the statements -/

/-- The response every failing path builds: status 404, the message as body,
all other fields at their zero value. -/
def failureResponse (message : String) : Response :=
  { Body := message, StatusCode := 404 }

/-- The response of the successful paths: status 200, the short identifier
itself as body, the JSON content type as the only header. -/
def successResponse (shortUrl : String) : Response :=
  { Body := shortUrl
    StatusCode := 200
    IsBase64Encoded := false
    Headers := [("Content-Type", "application/json")] }

/-- The service once a scan for `url` has been issued. -/
def afterScan (svc : DynamoDB) (url : String) : DynamoDB :=
  { svc with calls := svc.calls ++ [StoreCall.scan TABLE url] }

/-- The service once a scan for the record's long URL and a write of the record
have been issued, the write being accepted. -/
def afterWrite (svc : DynamoDB) (item : Item) : DynamoDB :=
  { keySchema := svc.keySchema
    items := (svc.items.filter fun r => !svc.keySchema.sameKey item r) ++ [item]
    calls := svc.calls ++ [StoreCall.scan TABLE item.LongUrl, StoreCall.putItem TABLE item] }

/-- The service once a scan and a write have been issued, the write being
refused. -/
def afterRefusedWrite (svc : DynamoDB) (item : Item) : DynamoDB :=
  { svc with
    calls := svc.calls ++ [StoreCall.scan TABLE item.LongUrl, StoreCall.putItem TABLE item] }

/-- The lookup ends without a short identifier and without an error: no record
matches, or the one that matches decodes to an empty `ShortUrl`. -/
def lookupEmpty (env : Env) (url : String) (svc : DynamoDB) : Prop :=
  matching url svc.items = [] ∨
    ∃ r, matching url svc.items = [r] ∧ env.unmarshalErr = none ∧ r.ShortUrl = ""

/-- Number of scans in a log. -/
def scanCount (calls : List StoreCall) : Nat :=
  calls.countP fun c => match c with
    | .scan _ _ => true
    | .putItem _ _ => false

/-- Number of writes in a log. -/
def putCount (calls : List StoreCall) : Nat :=
  calls.countP fun c => match c with
    | .scan _ _ => false
    | .putItem _ _ => true

/-- The service as the invocation left it. -/
def Outcome.service : Outcome → DynamoDB
  | .returned _ _ svc => svc
  | .panicked _ svc => svc

/-- The operations one invocation issued: what its outcome's log holds beyond
the log it started from. -/
def issued (svc : DynamoDB) (out : Outcome) : List StoreCall :=
  out.service.calls.drop svc.calls.length

/-- The body is a JSON object of the shape `{"url": "<string>"}`: one member,
named `url`, holding a string. -/
def HasUrlShape (body : String) : Prop :=
  ∃ s, parseJson body = .ok (Json.object [("url", Json.string s)])

/-- No call outside the handler fails during the invocation: the session is
created, the filter is built, the scan, the decoding of its record and the
write succeed, and the clock is within the range of a ULID. -/
def Env.succeeds (env : Env) : Prop :=
  env.sessionErr = none ∧ env.buildErr = none ∧ env.scanErr = none ∧
    env.unmarshalErr = none ∧ env.putErr = none ∧ env.now ≤ maxTime

instance (env : Env) : Decidable env.succeeds := by
  unfold Env.succeeds
  infer_instance

/-- A member value the field `url` cannot take: anything but a string or null. -/
def Json.unfitForString : Json → Bool
  | .string _ => false
  | .null => false
  | _ => true

/-- The documents `json.Unmarshal` rejects for a `RequestBody`: text that is not
JSON, a value that is neither an object nor null, and an object with a member
named `url`, in any capitalisation, whose value is neither a string nor null. -/
def Rejected : Except String Json → Prop
  | .error _ => True
  | .ok (.object members) =>
    ∃ kv ∈ members, matchesUrlField kv.1 = true ∧ kv.2.unfitForString = true
  | .ok .null => False
  | .ok _ => True

/-- A record a table with this primary key can hold: DynamoDB refuses a record
whose key attribute is missing or empty. -/
def KeySchema.admits : KeySchema → Item → Prop
  | .longUrl, r => r.LongUrl ≠ ""
  | .shortUrl, r => r.ShortUrl ≠ ""
  | .longAndShortUrl, r => r.LongUrl ≠ "" ∧ r.ShortUrl ≠ ""

instance (k : KeySchema) (r : Item) : Decidable (k.admits r) := by
  cases k <;> unfold KeySchema.admits <;> infer_instance

/-- A state the table can be in: every record carries its key attributes. -/
def DynamoDB.valid (svc : DynamoDB) : Prop :=
  ∀ r ∈ svc.items, svc.keySchema.admits r

instance (svc : DynamoDB) : Decidable svc.valid := by
  unfold DynamoDB.valid
  infer_instance

/-! ## Sample data -/

/-- An invocation in which every outside call succeeds. -/
def sampleEnv : Env :=
  { sessionErr := none, buildErr := none, scanErr := none, unmarshalErr := none,
    putErr := none, now := 1700000000000, entropy := 12345678901234567890 }

/-- A later invocation in which every outside call succeeds. -/
def laterEnv : Env :=
  { sessionErr := none, buildErr := none, scanErr := none, unmarshalErr := none,
    putErr := none, now := 1700000005000, entropy := 98765432109876543210 }

/-- The table before any record is written, keyed by the short identifier. -/
def emptyTable : DynamoDB :=
  { keySchema := KeySchema.shortUrl, items := [], calls := [] }

/-- A table keyed by the long URL whose record for `https://example.com/a` has
an empty short identifier. -/
def blankTable : DynamoDB :=
  { keySchema := KeySchema.longUrl
    items := [{ LongUrl := "https://example.com/a", ShortUrl := "" }]
    calls := [] }

/-- A table that already holds, for another long URL, the short identifier the
sample invocation generates. -/
def collidingTable : DynamoDB :=
  { keySchema := KeySchema.shortUrl
    items := [{ LongUrl := "https://example.com/b", ShortUrl := "01HF7YAT00000APN59HKNHY2PJ" }]
    calls := [] }

/-- A table with one complete record for `https://example.com/a`. -/
def filledTable : DynamoDB :=
  { keySchema := KeySchema.shortUrl
    items := [{ LongUrl := "https://example.com/a", ShortUrl := "01HF7YAT00000APN59HKNHY2PJ" }]
    calls := [] }

/-- A table with two records for `https://example.com/a`. -/
def ambiguousTable : DynamoDB :=
  { keySchema := KeySchema.shortUrl
    items := [{ LongUrl := "https://example.com/a", ShortUrl := "01HF7YAT00000APN59HKNHY2PJ" },
              { LongUrl := "https://example.com/a", ShortUrl := "01HF7YAT00000APN59HKNHY2PK" }]
    calls := [] }

/-- A request submitting the long URL `https://example.com/a`. -/
def sampleRequest : Request :=
  { Body := "\x7b\"url\": \"https://example.com/a\"\x7d" }

/-- A request whose body is the empty JSON object. -/
def emptyObjectRequest : Request :=
  { Body := "\x7b\x7d" }

/-- A request whose body is not JSON. -/
def malformedRequest : Request :=
  { Body := "not json" }

/-! ## The parser reads its input and has fuel to spare -/

theorem skipSpace_length (s : List Char) : (skipSpace s).length ≤ s.length := by
  induction s with
  | nil => simp [skipSpace]
  | cons c cs ih =>
    unfold skipSpace
    split
    · exact Nat.le_succ_of_le ih
    · exact Nat.le_refl _

theorem skipSpace_cons_length (s cs : List Char) (c : Char) (h : skipSpace s = c :: cs) :
    cs.length + 1 ≤ s.length := by
  have := skipSpace_length s
  rw [h] at this
  simpa using this

theorem skipDigits_length (s : List Char) : (skipDigits s).length ≤ s.length := by
  induction s with
  | nil => simp [skipDigits]
  | cons c cs ih =>
    unfold skipDigits
    split
    · exact Nat.le_succ_of_le ih
    · exact Nat.le_refl _

theorem hex4_length (s rest : List Char) (u : Nat) (h : hex4 s = .ok (u, rest)) :
    rest.length + 4 = s.length := by
  match s, h with
  | a :: b :: c :: d :: r, h =>
    simp only [hex4] at h
    split at h <;> simp at h
    simp [h.2]
  | [a, b, c], h =>
    simp only [hex4] at h
    split at h <;> simp at h
  | [a, b], h =>
    simp only [hex4] at h
    split at h <;> simp at h
  | [a], h =>
    simp only [hex4] at h
    split at h <;> simp at h
  | [], h => simp [hex4] at h

theorem stringStep_length (cs rest : List Char)
    (h : stringStep cs = .closed rest ∨ ∃ ch, stringStep cs = .char ch rest) :
    rest.length + 1 ≤ cs.length := by
  cases cs with
  | nil => simp [stringStep] at h
  | cons c cs =>
    simp only [stringStep] at h
    split at h
    · simp only [StringStep.closed.injEq, reduceCtorEq, exists_false, or_false] at h
      simp [h]
    · split at h
      · cases cs with
        | nil => simp at h
        | cons e r =>
          simp only at h
          split at h
          · cases hh : hex4 r with
            | error m => simp [hh] at h
            | ok p =>
              obtain ⟨u, r1⟩ := p
              have hl := hex4_length _ _ _ hh
              simp only [hh] at h
              split at h
              · simp only [reduceCtorEq, StringStep.char.injEq, false_or] at h
                obtain ⟨_, _, h2⟩ := h
                rw [← h2]; simp only [List.length_cons]; omega
              · simp only [reduceCtorEq, StringStep.char.injEq, false_or] at h
                obtain ⟨_, _, h2⟩ := h
                rw [← h2]; simp only [List.length_cons, List.length_drop]; omega
          · cases hse : simpleEscape e with
            | some ch =>
              simp only [hse, reduceCtorEq, StringStep.char.injEq, false_or] at h
              obtain ⟨_, _, h2⟩ := h
              rw [← h2]; simp
            | none => simp [hse] at h
      · split at h
        · simp at h
        · simp only [reduceCtorEq, StringStep.char.injEq, false_or] at h
          obtain ⟨_, _, h2⟩ := h
          rw [← h2]; simp

theorem parseString_length (fuel : Nat) (acc cs rest : List Char) (s : String)
    (h : parseString fuel acc cs = .ok (s, rest)) : rest.length + 1 ≤ cs.length := by
  induction fuel generalizing acc cs with
  | zero => rw [parseString] at h; cases h
  | succ n ih =>
    rw [parseString] at h
    cases hst : stringStep cs with
    | closed r =>
      rw [hst] at h
      simp only [Except.ok.injEq, Prod.mk.injEq] at h
      rw [← h.2]; exact stringStep_length cs r (Or.inl hst)
    | char ch r =>
      rw [hst] at h
      have := ih _ _ h
      have := stringStep_length cs r (Or.inr ⟨ch, hst⟩)
      omega
    | invalid m =>
      rw [hst] at h
      cases h

/-- More fuel than the literal has characters does not change its parse. -/
theorem parseString_fuel (f g : Nat) (acc cs : List Char)
    (hf : cs.length + 1 ≤ f) (hg : f ≤ g) :
    parseString g acc cs = parseString f acc cs := by
  induction f generalizing g acc cs with
  | zero => omega
  | succ n ih =>
    obtain ⟨m, rfl⟩ : ∃ m, g = m + 1 := ⟨g - 1, by omega⟩
    rw [parseString, parseString]
    cases hst : stringStep cs with
    | closed r => rfl
    | char ch r =>
      have := stringStep_length cs r (Or.inr ⟨ch, hst⟩)
      exact ih m _ _ (by omega) (by omega)
    | invalid e => rfl

theorem skipSign_length (s : List Char) : (skipSign s).length ≤ s.length := by
  cases s with
  | nil => simp [skipSign]
  | cons c cs =>
    simp only [skipSign]
    split <;> simp

theorem parseExponent_length (s rest : List Char) (h : parseExponent s = .ok ((), rest)) :
    rest.length ≤ s.length := by
  cases s with
  | nil =>
    simp only [parseExponent, Except.ok.injEq, Prod.mk.injEq, true_and] at h
    rw [← h]
  | cons c cs =>
    simp only [parseExponent] at h
    split at h
    · have hs := skipSign_length cs
      cases hsk : skipSign cs with
      | nil => rw [hsk] at h; cases h
      | cons d more =>
        rw [hsk] at h hs
        simp only at h
        split at h
        · simp only [Except.ok.injEq, Prod.mk.injEq, true_and] at h
          have := skipDigits_length more
          rw [← h]
          simp only [List.length_cons] at *; omega
        · cases h
    · simp only [Except.ok.injEq, Prod.mk.injEq, true_and] at h
      rw [← h]

theorem parseFraction_length (s rest : List Char) (h : parseFraction s = .ok ((), rest)) :
    rest.length ≤ s.length := by
  cases s with
  | nil =>
    simp only [parseFraction, Except.ok.injEq, Prod.mk.injEq, true_and] at h
    rw [← h]
  | cons c cs =>
    simp only [parseFraction] at h
    split at h
    · cases cs with
      | nil => cases h
      | cons d more =>
        simp only at h
        split at h
        · have h1 := parseExponent_length _ _ h
          have h2 := skipDigits_length more
          simp only [List.length_cons]; omega
        · cases h
    · exact parseExponent_length _ _ h

theorem parseDigits_length (s rest : List Char) (h : parseDigits s = .ok ((), rest)) :
    rest.length + 1 ≤ s.length := by
  cases s with
  | nil => simp only [parseDigits] at h; cases h
  | cons c cs =>
    simp only [parseDigits] at h
    split at h
    · have := parseFraction_length _ _ h
      simp only [List.length_cons]; omega
    · split at h
      · have h1 := parseFraction_length _ _ h
        have h2 := skipDigits_length cs
        simp only [List.length_cons]; omega
      · cases h

theorem parseLiteral_length (name : String) (es cs rest : List Char)
    (h : parseLiteral name es cs = .ok ((), rest)) : rest.length ≤ cs.length := by
  induction es generalizing cs with
  | nil =>
    simp only [parseLiteral, Except.ok.injEq, Prod.mk.injEq, true_and] at h
    rw [← h]
  | cons e es ih =>
    cases cs with
    | nil => simp only [parseLiteral] at h; cases h
    | cons c cs =>
      simp only [parseLiteral] at h
      split at h
      · have := ih _ h
        simp only [List.length_cons]; omega
      · cases h

theorem parseScalar_length (c : Char) (cs rest : List Char) (v : Json)
    (h : parseScalar c cs = .ok (v, rest)) : rest.length ≤ cs.length := by
  unfold parseScalar at h
  split at h
  · cases hp : parseString (cs.length + 1) [] cs with
    | error m => rw [hp] at h; cases h
    | ok p =>
      obtain ⟨s, r⟩ := p
      rw [hp] at h
      simp only [Except.ok.injEq, Prod.mk.injEq] at h
      have := parseString_length _ _ _ _ _ hp
      rw [← h.2]; omega
  · split at h
    · cases hp : parseDigits cs with
      | error m => rw [hp] at h; cases h
      | ok p =>
        obtain ⟨u, r⟩ := p
        rw [hp] at h
        simp only [Except.ok.injEq, Prod.mk.injEq] at h
        have := parseDigits_length _ _ hp
        rw [← h.2]; omega
    · split at h
      · cases hp : parseDigits (c :: cs) with
        | error m => rw [hp] at h; cases h
        | ok p =>
          obtain ⟨u, r⟩ := p
          rw [hp] at h
          simp only [Except.ok.injEq, Prod.mk.injEq] at h
          have := parseDigits_length _ _ hp
          rw [← h.2]; simp only [List.length_cons] at this; omega
      · split at h
        · cases hp : parseLiteral "true" ['r', 'u', 'e'] cs with
          | error m => rw [hp] at h; cases h
          | ok p =>
            obtain ⟨u, r⟩ := p
            rw [hp] at h
            simp only [Except.ok.injEq, Prod.mk.injEq] at h
            have := parseLiteral_length _ _ _ _ hp
            rw [← h.2]; exact this
        · split at h
          · cases hp : parseLiteral "false" ['a', 'l', 's', 'e'] cs with
            | error m => rw [hp] at h; cases h
            | ok p =>
              obtain ⟨u, r⟩ := p
              rw [hp] at h
              simp only [Except.ok.injEq, Prod.mk.injEq] at h
              have := parseLiteral_length _ _ _ _ hp
              rw [← h.2]; exact this
          · split at h
            · cases hp : parseLiteral "null" ['u', 'l', 'l'] cs with
              | error m => rw [hp] at h; cases h
              | ok p =>
                obtain ⟨u, r⟩ := p
                rw [hp] at h
                simp only [Except.ok.injEq, Prod.mk.injEq] at h
                have := parseLiteral_length _ _ _ _ hp
                rw [← h.2]; exact this
            · cases h

/-- Every successful parse of a value, of the elements of an array or of the
members of an object reads at least one character. -/
theorem parse_length (f : Nat) :
    (∀ input v rest, parseValue f input = .ok (v, rest) →
        rest.length + 1 ≤ input.length) ∧
    (∀ input vs rest, parseElements f input = .ok (vs, rest) →
        rest.length + 1 ≤ input.length) ∧
    (∀ input ms rest, parseMembers f input = .ok (ms, rest) →
        rest.length + 1 ≤ input.length) := by
  induction f with
  | zero =>
    refine ⟨?_, ?_, ?_⟩
    · intro input v rest h; rw [parseValue] at h; cases h
    · intro input v rest h; rw [parseElements] at h; cases h
    · intro input v rest h; rw [parseMembers] at h; cases h
  | succ n ih =>
    obtain ⟨ihv, ihe, ihm⟩ := ih
    refine ⟨?_, ?_, ?_⟩
    · intro input v rest h
      rw [parseValue] at h
      cases hsk : skipSpace input with
      | nil => rw [hsk] at h; cases h
      | cons c cs =>
        have hl := skipSpace_cons_length _ _ _ hsk
        rw [hsk] at h
        simp only at h
        split at h
        · cases hsk2 : skipSpace cs with
          | nil => rw [hsk2] at h; cases h
          | cons d ds =>
            have hl2 := skipSpace_cons_length _ _ _ hsk2
            rw [hsk2] at h
            simp only at h
            split at h
            · simp only [Except.ok.injEq, Prod.mk.injEq] at h
              rw [← h.2]; omega
            · cases hp : parseMembers n (d :: ds) with
              | error m => rw [hp] at h; cases h
              | ok p =>
                obtain ⟨ms, r⟩ := p
                rw [hp] at h
                simp only [Except.ok.injEq, Prod.mk.injEq] at h
                have := ihm _ _ _ hp
                rw [← h.2]; simp only [List.length_cons] at this; omega
        · split at h
          · cases hsk2 : skipSpace cs with
            | nil => rw [hsk2] at h; cases h
            | cons d ds =>
              have hl2 := skipSpace_cons_length _ _ _ hsk2
              rw [hsk2] at h
              simp only at h
              split at h
              · simp only [Except.ok.injEq, Prod.mk.injEq] at h
                rw [← h.2]; omega
              · cases hp : parseElements n (d :: ds) with
                | error m => rw [hp] at h; cases h
                | ok p =>
                  obtain ⟨es, r⟩ := p
                  rw [hp] at h
                  simp only [Except.ok.injEq, Prod.mk.injEq] at h
                  have := ihe _ _ _ hp
                  rw [← h.2]; simp only [List.length_cons] at this; omega
          · have := parseScalar_length _ _ _ _ h
            omega
    · intro input vs rest h
      rw [parseElements] at h
      cases hp : parseValue n input with
      | error m => rw [hp] at h; cases h
      | ok p =>
        obtain ⟨v, r⟩ := p
        have hv := ihv _ _ _ hp
        rw [hp] at h
        simp only at h
        cases hsk : skipSpace r with
        | nil => rw [hsk] at h; cases h
        | cons c cs =>
          have hl := skipSpace_cons_length _ _ _ hsk
          rw [hsk] at h
          simp only at h
          split at h
          · simp only [Except.ok.injEq, Prod.mk.injEq] at h
            rw [← h.2]; omega
          · split at h
            · cases hp2 : parseElements n cs with
              | error m => rw [hp2] at h; cases h
              | ok p2 =>
                obtain ⟨vs2, r2⟩ := p2
                rw [hp2] at h
                simp only [Except.ok.injEq, Prod.mk.injEq] at h
                have := ihe _ _ _ hp2
                rw [← h.2]; omega
            · cases h
    · intro input ms rest h
      rw [parseMembers] at h
      cases hsk : skipSpace input with
      | nil => rw [hsk] at h; cases h
      | cons q aq =>
        have hl := skipSpace_cons_length _ _ _ hsk
        rw [hsk] at h
        simp only at h
        split at h
        · cases hps : parseString (aq.length + 1) [] aq with
          | error m => rw [hps] at h; cases h
          | ok p =>
            obtain ⟨key, r⟩ := p
            have hkl := parseString_length _ _ _ _ _ hps
            rw [hps] at h
            simp only at h
            cases hsk2 : skipSpace r with
            | nil => rw [hsk2] at h; cases h
            | cons colon ac =>
              have hl2 := skipSpace_cons_length _ _ _ hsk2
              rw [hsk2] at h
              simp only at h
              split at h
              · cases hp : parseValue n ac with
                | error m => rw [hp] at h; cases h
                | ok p1 =>
                  obtain ⟨v, r1⟩ := p1
                  have hv := ihv _ _ _ hp
                  rw [hp] at h
                  simp only at h
                  cases hsk3 : skipSpace r1 with
                  | nil => rw [hsk3] at h; cases h
                  | cons c cs =>
                    have hl3 := skipSpace_cons_length _ _ _ hsk3
                    rw [hsk3] at h
                    simp only at h
                    split at h
                    · simp only [Except.ok.injEq, Prod.mk.injEq] at h
                      rw [← h.2]; omega
                    · split at h
                      · cases hp2 : parseMembers n cs with
                        | error m => rw [hp2] at h; cases h
                        | ok p2 =>
                          obtain ⟨ms2, r2⟩ := p2
                          rw [hp2] at h
                          simp only [Except.ok.injEq, Prod.mk.injEq] at h
                          have := ihm _ _ _ hp2
                          rw [← h.2]; omega
                      · cases h
              · cases h
        · cases h

/-- Past twice the length of the input, more fuel does not change a parse. -/
theorem parse_fuel (f : Nat) :
    (∀ g input, 2 * input.length + 1 ≤ f → f ≤ g →
        parseValue g input = parseValue f input) ∧
    (∀ g input, 2 * input.length + 2 ≤ f → f ≤ g →
        parseElements g input = parseElements f input) ∧
    (∀ g input, 2 * input.length + 2 ≤ f → f ≤ g →
        parseMembers g input = parseMembers f input) := by
  induction f with
  | zero =>
    refine ⟨?_, ?_, ?_⟩ <;> intro g input hf _ <;> omega
  | succ n ih =>
    obtain ⟨ihv, ihe, ihm⟩ := ih
    refine ⟨?_, ?_, ?_⟩
    · intro g input hf hg
      obtain ⟨m, rfl⟩ : ∃ m, g = m + 1 := ⟨g - 1, by omega⟩
      rw [parseValue, parseValue]
      cases hsk : skipSpace input with
      | nil => rfl
      | cons c cs =>
        have hl := skipSpace_cons_length _ _ _ hsk
        simp only
        split
        · cases hsk2 : skipSpace cs with
          | nil => rfl
          | cons d ds =>
            have hl2 := skipSpace_cons_length _ _ _ hsk2
            simp only
            split
            · rfl
            · rw [ihm m (d :: ds) (by simp only [List.length_cons]; omega) (by omega)]
        · split
          · cases hsk2 : skipSpace cs with
            | nil => rfl
            | cons d ds =>
              have hl2 := skipSpace_cons_length _ _ _ hsk2
              simp only
              split
              · rfl
              · rw [ihe m (d :: ds) (by simp only [List.length_cons]; omega) (by omega)]
          · rfl
    · intro g input hf hg
      obtain ⟨m, rfl⟩ : ∃ m, g = m + 1 := ⟨g - 1, by omega⟩
      rw [parseElements, parseElements, ihv m input (by omega) (by omega)]
      cases hp : parseValue n input with
      | error e => rfl
      | ok p =>
        obtain ⟨v, r⟩ := p
        have hv := (parse_length n).1 _ _ _ hp
        simp only
        cases hsk : skipSpace r with
        | nil => rfl
        | cons c cs =>
          have hl := skipSpace_cons_length _ _ _ hsk
          simp only
          split
          · rfl
          · split
            · rw [ihe m cs (by omega) (by omega)]
            · rfl
    · intro g input hf hg
      obtain ⟨m, rfl⟩ : ∃ m, g = m + 1 := ⟨g - 1, by omega⟩
      rw [parseMembers, parseMembers]
      cases hsk : skipSpace input with
      | nil => rfl
      | cons q aq =>
        have hl := skipSpace_cons_length _ _ _ hsk
        simp only
        split
        · cases hps : parseString (aq.length + 1) [] aq with
          | error e => rfl
          | ok p =>
            obtain ⟨key, r⟩ := p
            have hkl := parseString_length _ _ _ _ _ hps
            simp only
            cases hsk2 : skipSpace r with
            | nil => rfl
            | cons colon ac =>
              have hl2 := skipSpace_cons_length _ _ _ hsk2
              simp only
              split
              · rw [ihv m ac (by omega) (by omega)]
                cases hp : parseValue n ac with
                | error e => rfl
                | ok p1 =>
                  obtain ⟨v, r1⟩ := p1
                  have hv := (parse_length n).1 _ _ _ hp
                  simp only
                  cases hsk3 : skipSpace r1 with
                  | nil => rfl
                  | cons c cs =>
                    have hl3 := skipSpace_cons_length _ _ _ hsk3
                    simp only
                    split
                    · rfl
                    · split
                      · rw [ihm m cs (by omega) (by omega)]
                      · rfl
              · rfl
        · rfl

/-- The fuel `parseJson` starts with is enough: with any larger amount the
value parsed, or the error, is the same. -/
theorem parseValue_fuel (text : List Char) (g : Nat) (hg : 2 * text.length + 2 ≤ g) :
    parseValue g text = parseValue (2 * text.length + 2) text :=
  (parse_fuel (2 * text.length + 2)).1 g text (by omega) hg

/-! ## The paths of `findByLongUrl` and `Handler` -/

theorem Handler_of_decode_error (env : Env) (svc : DynamoDB) (request : Request) (e : String)
    (h : jsonUnmarshal request.Body { LongUrl := "" } = .error e) :
    Handler env svc request = .returned (failureResponse e) none svc := by
  simp [Handler, h, failureResponse]

theorem Handler_of_session_error (env : Env) (svc : DynamoDB) (request : Request)
    (body : RequestBody) (e : String)
    (h : jsonUnmarshal request.Body { LongUrl := "" } = .ok body)
    (hs : env.sessionErr = some e) :
    Handler env svc request = .panicked e svc := by
  simp [Handler, h, hs]

theorem findByLongUrl_of_build_error (env : Env) (url : String) (svc : DynamoDB) (e : String)
    (hb : env.buildErr = some e) :
    findByLongUrl env url svc = (({ LongUrl := "", ShortUrl := "" }, some e), svc) := by
  simp [findByLongUrl, hb]

theorem findByLongUrl_of_scan_error (env : Env) (url : String) (svc : DynamoDB) (e : String)
    (hb : env.buildErr = none) (hs : env.scanErr = some e) :
    findByLongUrl env url svc
      = (({ LongUrl := "", ShortUrl := "" }, some e), afterScan svc url) := by
  simp [findByLongUrl, hb, Scan, hs, afterScan]

theorem findByLongUrl_of_many (env : Env) (url : String) (svc : DynamoDB)
    (hb : env.buildErr = none) (hs : env.scanErr = none)
    (hm : (matching url svc.items).length > 1) :
    findByLongUrl env url svc
      = (({ LongUrl := "", ShortUrl := "" }, some "Found more than one entry"),
          afterScan svc url) := by
  simp [findByLongUrl, hb, Scan, hs, afterScan, hm]

theorem findByLongUrl_of_none (env : Env) (url : String) (svc : DynamoDB)
    (hb : env.buildErr = none) (hs : env.scanErr = none)
    (hm : matching url svc.items = []) :
    findByLongUrl env url svc
      = (({ LongUrl := "", ShortUrl := "" }, none), afterScan svc url) := by
  simp [findByLongUrl, hb, Scan, hs, afterScan, hm]

theorem findByLongUrl_of_unmarshal_error (env : Env) (url : String) (svc : DynamoDB)
    (r : Item) (e : String)
    (hb : env.buildErr = none) (hs : env.scanErr = none)
    (hm : matching url svc.items = [r]) (hu : env.unmarshalErr = some e) :
    findByLongUrl env url svc
      = (({ LongUrl := "", ShortUrl := "" }, some e), afterScan svc url) := by
  simp [findByLongUrl, hb, Scan, hs, afterScan, hm, hu]

theorem findByLongUrl_of_one (env : Env) (url : String) (svc : DynamoDB) (r : Item)
    (hb : env.buildErr = none) (hs : env.scanErr = none)
    (hm : matching url svc.items = [r]) (hu : env.unmarshalErr = none) :
    findByLongUrl env url svc = ((r, none), afterScan svc url) := by
  simp [findByLongUrl, hb, Scan, hs, afterScan, hm, hu]

theorem findByLongUrl_of_lookupEmpty (env : Env) (url : String) (svc : DynamoDB)
    (hb : env.buildErr = none) (hs : env.scanErr = none) (hl : lookupEmpty env url svc) :
    ∃ item, findByLongUrl env url svc = ((item, none), afterScan svc url)
      ∧ item.ShortUrl = "" := by
  rcases hl with hm | ⟨r, hm, hu, hr⟩
  · exact ⟨_, findByLongUrl_of_none env url svc hb hs hm, rfl⟩
  · exact ⟨r, findByLongUrl_of_one env url svc r hb hs hm hu, hr⟩

theorem Handler_of_lookup_error (env : Env) (svc svc1 : DynamoDB) (request : Request)
    (body : RequestBody) (item : Item) (e : String)
    (h : jsonUnmarshal request.Body { LongUrl := "" } = .ok body)
    (hs : env.sessionErr = none)
    (hf : findByLongUrl env body.LongUrl svc = ((item, some e), svc1)) :
    Handler env svc request = .returned (failureResponse e) none svc1 := by
  simp [Handler, h, hs, hf, failureResponse]

theorem Handler_of_found (env : Env) (svc svc1 : DynamoDB) (request : Request)
    (body : RequestBody) (item : Item)
    (h : jsonUnmarshal request.Body { LongUrl := "" } = .ok body)
    (hs : env.sessionErr = none)
    (hf : findByLongUrl env body.LongUrl svc = ((item, none), svc1))
    (hne : item.ShortUrl ≠ "") :
    Handler env svc request = .returned (successResponse item.ShortUrl) none svc1 := by
  simp [Handler, h, hs, hf, hne, successResponse]

theorem Handler_of_clock_panic (env : Env) (svc svc1 : DynamoDB) (request : Request)
    (body : RequestBody) (item : Item)
    (h : jsonUnmarshal request.Body { LongUrl := "" } = .ok body)
    (hs : env.sessionErr = none)
    (hf : findByLongUrl env body.LongUrl svc = ((item, none), svc1))
    (he : item.ShortUrl = "") (ht : env.now > maxTime) :
    Handler env svc request = .panicked "ulid: time too big" svc1 := by
  simp [Handler, h, hs, hf, he, generateUlid, ht]

theorem Handler_of_put_error (env : Env) (svc : DynamoDB) (request : Request)
    (body : RequestBody) (item : Item) (e : String)
    (h : jsonUnmarshal request.Body { LongUrl := "" } = .ok body)
    (hs : env.sessionErr = none)
    (hf : findByLongUrl env body.LongUrl svc = ((item, none), afterScan svc body.LongUrl))
    (he : item.ShortUrl = "") (ht : env.now ≤ maxTime) (hp : env.putErr = some e) :
    Handler env svc request = .returned (failureResponse e) none
      (afterRefusedWrite svc
        { LongUrl := body.LongUrl, ShortUrl := ulidString env.now env.entropy }) := by
  have ht' : ¬ env.now > maxTime := Nat.not_lt.mpr ht
  simp [Handler, h, hs, hf, he, generateUlid, ht', putItem, PutItem, hp, failureResponse,
    afterRefusedWrite, afterScan]

theorem Handler_of_put (env : Env) (svc : DynamoDB) (request : Request)
    (body : RequestBody) (item : Item)
    (h : jsonUnmarshal request.Body { LongUrl := "" } = .ok body)
    (hs : env.sessionErr = none)
    (hf : findByLongUrl env body.LongUrl svc = ((item, none), afterScan svc body.LongUrl))
    (he : item.ShortUrl = "") (ht : env.now ≤ maxTime) (hp : env.putErr = none) :
    Handler env svc request = .returned (successResponse (ulidString env.now env.entropy)) none
      (afterWrite svc
        { LongUrl := body.LongUrl, ShortUrl := ulidString env.now env.entropy }) := by
  have ht' : ¬ env.now > maxTime := Nat.not_lt.mpr ht
  simp [Handler, h, hs, hf, he, generateUlid, ht', putItem, PutItem, hp, successResponse,
    afterWrite, afterScan]

theorem base32_length (n v : Nat) : (base32 n v).length = n := by
  induction n with
  | zero => rfl
  | succ k ih => simp [base32, ih]

theorem ulidString_length (ms e : Nat) : (ulidString ms e).length = 26 := by
  simp [ulidString, String.length, base32_length]

theorem ulidString_ne_empty (ms e : Nat) : ulidString ms e ≠ "" := by
  intro h
  have := ulidString_length ms e
  rw [h] at this
  simp at this

/-- Every way `Handler` can end, with the outcome of each. -/
theorem Handler_cases (env : Env) (svc : DynamoDB) (request : Request) :
    (∃ e, jsonUnmarshal request.Body { LongUrl := "" } = .error e ∧
        Handler env svc request = .returned (failureResponse e) none svc) ∨
    ∃ body, jsonUnmarshal request.Body { LongUrl := "" } = .ok body ∧
      ((∃ e, env.sessionErr = some e ∧ Handler env svc request = .panicked e svc) ∨
       (env.sessionErr = none ∧
        ((∃ item e svc1, findByLongUrl env body.LongUrl svc = ((item, some e), svc1) ∧
            Handler env svc request = .returned (failureResponse e) none svc1) ∨
         (∃ item svc1, findByLongUrl env body.LongUrl svc = ((item, none), svc1) ∧
            item.ShortUrl ≠ "" ∧
            Handler env svc request = .returned (successResponse item.ShortUrl) none svc1) ∨
         (∃ item svc1, findByLongUrl env body.LongUrl svc = ((item, none), svc1) ∧
            item.ShortUrl = "" ∧
            ((env.now > maxTime ∧
                Handler env svc request = .panicked "ulid: time too big" svc1) ∨
             (env.now ≤ maxTime ∧ ∃ e svc2,
                putItem env ⟨body.LongUrl, ulidString env.now env.entropy⟩ svc1
                  = (some e, svc2) ∧
                Handler env svc request = .returned (failureResponse e) none svc2) ∨
             (env.now ≤ maxTime ∧ ∃ svc2,
                putItem env ⟨body.LongUrl, ulidString env.now env.entropy⟩ svc1
                  = (none, svc2) ∧
                Handler env svc request = .returned
                  (successResponse (ulidString env.now env.entropy)) none svc2)))))) := by
  cases hd : jsonUnmarshal request.Body { LongUrl := "" } with
  | error e => exact Or.inl ⟨e, rfl, Handler_of_decode_error env svc request e hd⟩
  | ok body =>
    refine Or.inr ⟨body, rfl, ?_⟩
    cases hs : env.sessionErr with
    | some e => exact Or.inl ⟨e, rfl, Handler_of_session_error env svc request body e hd hs⟩
    | none =>
      refine Or.inr ⟨rfl, ?_⟩
      rcases hf : findByLongUrl env body.LongUrl svc with ⟨⟨item, err⟩, svc1⟩
      cases err with
      | some e =>
        exact Or.inl ⟨item, e, svc1, rfl,
          Handler_of_lookup_error env svc svc1 request body item e hd hs hf⟩
      | none =>
        by_cases hne : item.ShortUrl = ""
        · refine Or.inr (Or.inr ⟨item, svc1, rfl, hne, ?_⟩)
          by_cases ht : env.now > maxTime
          · exact Or.inl ⟨ht, Handler_of_clock_panic env svc svc1 request body item hd hs hf hne ht⟩
          · have ht' : env.now ≤ maxTime := Nat.not_lt.mp ht
            rcases hp : putItem env ⟨body.LongUrl, ulidString env.now env.entropy⟩ svc1
              with ⟨perr, svc2⟩
            cases perr with
            | some e =>
              refine Or.inr (Or.inl ⟨ht', e, svc2, rfl, ?_⟩)
              simp [Handler, hd, hs, hf, hne, generateUlid, ht, hp, failureResponse]
            | none =>
              refine Or.inr (Or.inr ⟨ht', svc2, rfl, ?_⟩)
              simp [Handler, hd, hs, hf, hne, generateUlid, ht, hp, successResponse]
        · exact Or.inr (Or.inl ⟨item, svc1, rfl, hne,
            Handler_of_found env svc svc1 request body item hd hs hf hne⟩)

/-- Every way `findByLongUrl` can end. -/
theorem findByLongUrl_cases (env : Env) (url : String) (svc : DynamoDB) :
    (∃ e, env.buildErr = some e ∧
        findByLongUrl env url svc = ((⟨"", ""⟩, some e), svc)) ∨
    (env.buildErr = none ∧
      ((∃ e, env.scanErr = some e ∧
          findByLongUrl env url svc = ((⟨"", ""⟩, some e), afterScan svc url)) ∨
       (env.scanErr = none ∧
        (((matching url svc.items).length > 1 ∧
            findByLongUrl env url svc
              = ((⟨"", ""⟩, some "Found more than one entry"), afterScan svc url)) ∨
         (matching url svc.items = [] ∧
            findByLongUrl env url svc = ((⟨"", ""⟩, none), afterScan svc url)) ∨
         ∃ r, matching url svc.items = [r] ∧
           ((∃ e, env.unmarshalErr = some e ∧
               findByLongUrl env url svc = ((⟨"", ""⟩, some e), afterScan svc url)) ∨
            (env.unmarshalErr = none ∧
               findByLongUrl env url svc = ((r, none), afterScan svc url))))))) := by
  cases hb : env.buildErr with
  | some e => exact Or.inl ⟨e, rfl, findByLongUrl_of_build_error env url svc e hb⟩
  | none =>
    refine Or.inr ⟨rfl, ?_⟩
    cases hs : env.scanErr with
    | some e => exact Or.inl ⟨e, rfl, findByLongUrl_of_scan_error env url svc e hb hs⟩
    | none =>
      refine Or.inr ⟨rfl, ?_⟩
      match hm : matching url svc.items with
      | [] => exact Or.inr (Or.inl ⟨rfl, findByLongUrl_of_none env url svc hb hs hm⟩)
      | [r] =>
        refine Or.inr (Or.inr ⟨r, rfl, ?_⟩)
        cases hu : env.unmarshalErr with
        | some e =>
          exact Or.inl ⟨e, rfl, findByLongUrl_of_unmarshal_error env url svc r e hb hs hm hu⟩
        | none => exact Or.inr ⟨rfl, findByLongUrl_of_one env url svc r hb hs hm hu⟩
      | a :: b :: rest =>
        have hl : (matching url svc.items).length > 1 := by rw [hm]; simp
        refine Or.inl ⟨by simp, ?_⟩
        exact findByLongUrl_of_many env url svc hb hs hl

/-- A lookup that ends without an error has scanned once, and either found
nothing or found the one matching record. -/
theorem findByLongUrl_ok (env : Env) (url : String) (svc svc1 : DynamoDB) (item : Item)
    (h : findByLongUrl env url svc = ((item, none), svc1)) :
    env.buildErr = none ∧ env.scanErr = none ∧ svc1 = afterScan svc url ∧
      ((matching url svc.items = [] ∧ item = ⟨"", ""⟩) ∨
       (matching url svc.items = [item] ∧ env.unmarshalErr = none)) := by
  rcases findByLongUrl_cases env url svc with ⟨e, _, hf⟩ | ⟨hb, h2⟩
  · rw [hf] at h; simp at h
  · rcases h2 with ⟨e, _, hf⟩ | ⟨hs, h3⟩
    · rw [hf] at h; simp at h
    · rcases h3 with ⟨_, hf⟩ | ⟨hm, hf⟩ | ⟨r, hm, h4⟩
      · rw [hf] at h; simp at h
      · rw [hf] at h
        simp only [Prod.mk.injEq, and_true, true_and] at h
        exact ⟨hb, hs, h.2.symm, Or.inl ⟨hm, h.1.symm⟩⟩
      · rcases h4 with ⟨e, _, hf⟩ | ⟨hu, hf⟩
        · rw [hf] at h; simp at h
        · rw [hf] at h
          simp only [Prod.mk.injEq, and_true, true_and] at h
          exact ⟨hb, hs, h.2.symm, Or.inr ⟨by rw [← h.1]; exact hm, hu⟩⟩

theorem mem_matching (url : String) (items : List Item) (r : Item) :
    r ∈ matching url items ↔ r ∈ items ∧ r.LongUrl = url := by
  simp [matching]

/-! ## What `Handler` returns -/

/-- What a returned outcome looks like: a failure response, or a success
response carrying the short identifier found or the one just generated. -/
theorem Handler_returned (env : Env) (svc svc1 : DynamoDB) (request : Request)
    (resp : Response) (err : Option String)
    (h : Handler env svc request = .returned resp err svc1) :
    err = none ∧
      ((∃ e, resp = failureResponse e) ∨
       ∃ body item svc0, jsonUnmarshal request.Body { LongUrl := "" } = .ok body ∧
         env.sessionErr = none ∧
         findByLongUrl env body.LongUrl svc = ((item, none), svc0) ∧
         ((item.ShortUrl ≠ "" ∧ resp = successResponse item.ShortUrl ∧ svc1 = svc0) ∨
          (item.ShortUrl = "" ∧ env.now ≤ maxTime ∧
            resp = successResponse (ulidString env.now env.entropy) ∧
            putItem env ⟨body.LongUrl, ulidString env.now env.entropy⟩ svc0
              = (none, svc1)))) := by
  rcases Handler_cases env svc request with ⟨e, _, h1⟩ | ⟨body, hd, h1⟩
  · rw [h1] at h
    injection h with h2 h3 h4
    exact ⟨h3.symm, Or.inl ⟨e, h2.symm⟩⟩
  · rcases h1 with ⟨e, _, h1⟩ | ⟨hs, h1⟩
    · rw [h1] at h; cases h
    · rcases h1 with ⟨_, e, svc0, _, h1⟩ | ⟨item, svc0, hf, hne, h1⟩ | ⟨item, svc0, hf, he, h1⟩
      · rw [h1] at h
        injection h with h2 h3 h4
        exact ⟨h3.symm, Or.inl ⟨e, h2.symm⟩⟩
      · rw [h1] at h
        injection h with h2 h3 h4
        exact ⟨h3.symm, Or.inr ⟨body, item, svc0, hd, hs, hf,
          Or.inl ⟨hne, h2.symm, h4.symm⟩⟩⟩
      · rcases h1 with ⟨_, h1⟩ | ⟨_, e, svc2, _, h1⟩ | ⟨ht, svc2, hp, h1⟩
        · rw [h1] at h; cases h
        · rw [h1] at h
          injection h with h2 h3 h4
          exact ⟨h3.symm, Or.inl ⟨e, h2.symm⟩⟩
        · rw [h1] at h
          injection h with h2 h3 h4
          subst h4
          exact ⟨h3.symm, Or.inr ⟨body, item, svc0, hd, hs, hf,
            Or.inr ⟨he, ht, h2.symm, hp⟩⟩⟩

/-- C10: whatever the request, the table and the outcome of the store calls,
a `Handler` that returns does so with a nil error and with status 200 or 404;
and it does return whenever the session can be created and the clock is in the
range of a ULID. -/
theorem Handler_error_nil (env : Env) (svc : DynamoDB) (request : Request) :
    (∀ resp err svc1, Handler env svc request = .returned resp err svc1 →
        err = none ∧ (resp.StatusCode = 200 ∨ resp.StatusCode = 404)) ∧
    (env.sessionErr = none → env.now ≤ maxTime →
      ∃ resp svc1, Handler env svc request = .returned resp none svc1 ∧
        (resp.StatusCode = 200 ∨ resp.StatusCode = 404)) := by
  constructor
  · intro resp err svc1 h
    rcases Handler_returned env svc svc1 request resp err h with
      ⟨he, ⟨e, hr⟩ | ⟨_, item, _, _, _, _, ⟨_, hr, _⟩ | ⟨_, _, hr, _⟩⟩⟩
    · exact ⟨he, Or.inr (by rw [hr]; rfl)⟩
    · exact ⟨he, Or.inl (by rw [hr]; rfl)⟩
    · exact ⟨he, Or.inl (by rw [hr]; rfl)⟩
  · intro hs ht
    rcases Handler_cases env svc request with ⟨e, _, h⟩ | ⟨body, _, h⟩
    · exact ⟨_, _, h, Or.inr rfl⟩
    · rcases h with ⟨e, hs1, _⟩ | ⟨_, h⟩
      · rw [hs] at hs1; cases hs1
      · rcases h with ⟨_, e, svc1, _, h⟩ | ⟨item, svc1, _, _, h⟩ | ⟨item, svc1, _, _, h⟩
        · exact ⟨_, _, h, Or.inr rfl⟩
        · exact ⟨_, _, h, Or.inl rfl⟩
        · rcases h with ⟨ht1, _⟩ | ⟨_, e, svc2, _, h⟩ | ⟨_, svc2, _, h⟩
          · exact absurd ht (Nat.not_le.mpr ht1)
          · exact ⟨_, _, h, Or.inr rfl⟩
          · exact ⟨_, _, h, Or.inl rfl⟩

/-- The C10 theorem at the sample request on the empty table. -/
theorem Handler_error_nil_witness :
    ∃ resp svc1, Handler sampleEnv emptyTable sampleRequest = .returned resp none svc1 ∧
      (resp.StatusCode = 200 ∨ resp.StatusCode = 404) :=
  (Handler_error_nil sampleEnv emptyTable sampleRequest).2 (by decide) (by decide)

/-- C6: every failure inside `Handler` gives the response with status 404, the
error's message as body and no headers: a body that does not decode, a filter
that cannot be built, a failed scan, more than one matching record, a record
that does not decode and a refused write; and a returned response that is not a
200 is always of that form. -/
theorem Handler_failure_is_404 (env : Env) (svc : DynamoDB) (request : Request) :
    (∀ e, jsonUnmarshal request.Body { LongUrl := "" } = .error e →
        Handler env svc request = .returned ⟨404, [], [], e, false⟩ none svc) ∧
    (∀ body, jsonUnmarshal request.Body { LongUrl := "" } = .ok body →
      env.sessionErr = none →
      (∀ e, env.buildErr = some e →
          Handler env svc request = .returned ⟨404, [], [], e, false⟩ none svc) ∧
      (env.buildErr = none →
        (∀ e, env.scanErr = some e →
            Handler env svc request
              = .returned ⟨404, [], [], e, false⟩ none (afterScan svc body.LongUrl)) ∧
        (env.scanErr = none →
          ((matching body.LongUrl svc.items).length > 1 →
              Handler env svc request
                = .returned ⟨404, [], [], "Found more than one entry", false⟩ none
                    (afterScan svc body.LongUrl)) ∧
          (∀ r e, matching body.LongUrl svc.items = [r] → env.unmarshalErr = some e →
              Handler env svc request
                = .returned ⟨404, [], [], e, false⟩ none (afterScan svc body.LongUrl)) ∧
          (∀ e, lookupEmpty env body.LongUrl svc → env.now ≤ maxTime →
              env.putErr = some e →
              Handler env svc request
                = .returned ⟨404, [], [], e, false⟩ none
                    (afterRefusedWrite svc
                      ⟨body.LongUrl, ulidString env.now env.entropy⟩))))) ∧
    (∀ resp err svc1, Handler env svc request = .returned resp err svc1 →
        resp.StatusCode ≠ 200 → resp = ⟨404, [], [], resp.Body, false⟩) := by
  refine ⟨fun e hd => Handler_of_decode_error env svc request e hd, ?_, ?_⟩
  · intro body hd hs
    refine ⟨fun e hb => ?_, fun hb => ⟨fun e hsc => ?_, fun hsc => ⟨fun hm => ?_,
      fun r e hm hu => ?_, fun e hl ht hp => ?_⟩⟩⟩
    · exact Handler_of_lookup_error env svc svc request body _ e hd hs
        (findByLongUrl_of_build_error env body.LongUrl svc e hb)
    · exact Handler_of_lookup_error env svc _ request body _ e hd hs
        (findByLongUrl_of_scan_error env body.LongUrl svc e hb hsc)
    · exact Handler_of_lookup_error env svc _ request body _ _ hd hs
        (findByLongUrl_of_many env body.LongUrl svc hb hsc hm)
    · exact Handler_of_lookup_error env svc _ request body _ e hd hs
        (findByLongUrl_of_unmarshal_error env body.LongUrl svc r e hb hsc hm hu)
    · obtain ⟨item, hf, he⟩ := findByLongUrl_of_lookupEmpty env body.LongUrl svc hb hsc hl
      exact Handler_of_put_error env svc request body item e hd hs hf he ht hp
  · intro resp err svc1 h hne
    rcases (Handler_returned env svc svc1 request resp err h).2 with
      ⟨e, hr⟩ | ⟨_, item, _, _, _, _, ⟨_, hr, _⟩ | ⟨_, _, hr, _⟩⟩
    · rw [hr]; rfl
    · rw [hr] at hne; exact absurd rfl hne
    · rw [hr] at hne; exact absurd rfl hne

/-- The C6 theorem at a body that is not JSON and at a table with two records
for the submitted URL. -/
theorem Handler_failure_is_404_witness :
    Handler sampleEnv emptyTable malformedRequest
        = .returned ⟨404, [], [],
            "invalid character 'o' in literal null (expecting 'u')", false⟩ none emptyTable ∧
      Handler sampleEnv ambiguousTable sampleRequest
        = .returned ⟨404, [], [], "Found more than one entry", false⟩ none
            (afterScan ambiguousTable "https://example.com/a") :=
  ⟨(Handler_failure_is_404 sampleEnv emptyTable malformedRequest).1 _ (by decide),
   (((Handler_failure_is_404 sampleEnv ambiguousTable sampleRequest).2.1
      ⟨"https://example.com/a"⟩ (by decide) (by decide)).2 (by decide)).2
      (by decide) |>.1 (by decide)⟩

/-- C7: a response with status 200 has the single header `Content-Type:
application/json`, is not base64 encoded, and its body is the short identifier
itself: the `ShortUrl` of the record the lookup found (hit) or the ULID just
generated (miss). -/
theorem Handler_success_shape (env : Env) (svc svc1 : DynamoDB) (request : Request)
    (resp : Response) (err : Option String)
    (h : Handler env svc request = .returned resp err svc1)
    (h200 : resp.StatusCode = 200) :
    resp = ⟨200, [("Content-Type", "application/json")], [], resp.Body, false⟩ ∧
    ∃ body item svc0, jsonUnmarshal request.Body { LongUrl := "" } = .ok body ∧
      findByLongUrl env body.LongUrl svc = ((item, none), svc0) ∧
      ((item.ShortUrl ≠ "" ∧ resp.Body = item.ShortUrl) ∨
       (item.ShortUrl = "" ∧ generateUlid env = .ok resp.Body)) := by
  rcases (Handler_returned env svc svc1 request resp err h).2 with
    ⟨e, hr⟩ | ⟨body, item, svc0, hd, _, hf, ⟨hne, hr, _⟩ | ⟨he, ht, hr, _⟩⟩
  · rw [hr] at h200; simp [failureResponse] at h200
  · refine ⟨by rw [hr]; rfl, body, item, svc0, hd, hf, Or.inl ⟨hne, by rw [hr]; rfl⟩⟩
  · refine ⟨by rw [hr]; rfl, body, item, svc0, hd, hf, Or.inr ⟨he, ?_⟩⟩
    have ht1 : ¬ env.now > maxTime := Nat.not_lt.mpr ht
    rw [hr]
    simp [generateUlid, ht1, successResponse]

/-- The C7 theorem at the sample request on the empty table. -/
theorem Handler_success_shape_witness :
    Handler sampleEnv emptyTable sampleRequest
        = .returned (successResponse "01HF7YAT00000APN59HKNHY2PJ") none
            (afterWrite emptyTable ⟨"https://example.com/a", "01HF7YAT00000APN59HKNHY2PJ"⟩) ∧
      (successResponse "01HF7YAT00000APN59HKNHY2PJ")
        = ⟨200, [("Content-Type", "application/json")], [],
            (successResponse "01HF7YAT00000APN59HKNHY2PJ").Body, false⟩ :=
  ⟨by decide,
   (Handler_success_shape sampleEnv emptyTable
      (afterWrite emptyTable ⟨"https://example.com/a", "01HF7YAT00000APN59HKNHY2PJ"⟩)
      sampleRequest (successResponse "01HF7YAT00000APN59HKNHY2PJ") none
      (by decide) (by decide)).1⟩

/-- C2: when `Handler` returns status 200 with body `S`, the request body decoded
to some long URL `L` and the table it leaves holds the record `(L, S)`. -/
theorem Handler_result_stored (env : Env) (svc svc1 : DynamoDB) (request : Request)
    (resp : Response) (err : Option String)
    (h : Handler env svc request = .returned resp err svc1)
    (h200 : resp.StatusCode = 200) :
    ∃ body, jsonUnmarshal request.Body { LongUrl := "" } = .ok body ∧
      (⟨body.LongUrl, resp.Body⟩ : Item) ∈ svc1.items := by
  rcases (Handler_returned env svc svc1 request resp err h).2 with
    ⟨e, hr⟩ | ⟨body, item, svc0, hd, _, hf, ⟨hne, hr, hsvc⟩ | ⟨he, ht, hr, hp⟩⟩
  · rw [hr] at h200; simp [failureResponse] at h200
  · refine ⟨body, hd, ?_⟩
    obtain ⟨_, _, h0, hm⟩ := findByLongUrl_ok env body.LongUrl svc svc0 item hf
    rcases hm with ⟨_, hz⟩ | ⟨hm, _⟩
    · rw [hz] at hne; exact absurd rfl hne
    · have hmem : item ∈ matching body.LongUrl svc.items := by rw [hm]; simp
      obtain ⟨hin, hl⟩ := (mem_matching _ _ _).1 hmem
      rw [hsvc, h0, hr]
      have : (⟨body.LongUrl, (successResponse item.ShortUrl).Body⟩ : Item) = item := by
        cases item; simp_all [successResponse]
      rw [this]
      exact hin
  · refine ⟨body, hd, ?_⟩
    rw [hr]
    simp only [putItem, PutItem] at hp
    split at hp
    · simp at hp
    · simp only [Prod.mk.injEq, true_and] at hp
      rw [← hp]
      simp [successResponse]

/-- The C2 theorem at the sample request on the empty table. -/
theorem Handler_result_stored_witness :
    ∃ body, jsonUnmarshal sampleRequest.Body { LongUrl := "" } = .ok body ∧
      (⟨body.LongUrl, "01HF7YAT00000APN59HKNHY2PJ"⟩ : Item)
        ∈ (afterWrite emptyTable
            ⟨"https://example.com/a", "01HF7YAT00000APN59HKNHY2PJ"⟩).items :=
  Handler_result_stored sampleEnv emptyTable
    (afterWrite emptyTable ⟨"https://example.com/a", "01HF7YAT00000APN59HKNHY2PJ"⟩)
    sampleRequest (successResponse "01HF7YAT00000APN59HKNHY2PJ") none
    (by decide) (by decide)

/-! ## Ambiguity, hit, miss and idempotence -/

theorem issued_self (svc : DynamoDB) (r : Response) (e : Option String) :
    issued svc (.returned r e svc) = [] := by
  simp [issued, Outcome.service]

theorem issued_afterScan (svc : DynamoDB) (url : String) (r : Response) (e : Option String) :
    issued svc (.returned r e (afterScan svc url)) = [StoreCall.scan TABLE url] := by
  simp [issued, Outcome.service, afterScan]

/-- C4: when the scan for the decoded long URL returns more than one record,
`findByLongUrl` returns the error "Found more than one entry", `Handler`
answers 404 with that message, and the only operation issued is the scan: no
write, and the records of the table are unchanged. -/
theorem Handler_ambiguous (env : Env) (svc : DynamoDB) (request : Request)
    (body : RequestBody)
    (hd : jsonUnmarshal request.Body { LongUrl := "" } = .ok body)
    (hs : env.sessionErr = none) (hb : env.buildErr = none) (hsc : env.scanErr = none)
    (hm : (matching body.LongUrl svc.items).length > 1) :
    (findByLongUrl env body.LongUrl svc).1.2 = some "Found more than one entry" ∧
    Handler env svc request
      = .returned ⟨404, [], [], "Found more than one entry", false⟩ none
          (afterScan svc body.LongUrl) ∧
    (afterScan svc body.LongUrl).items = svc.items ∧
    issued svc (Handler env svc request) = [StoreCall.scan TABLE body.LongUrl] ∧
    putCount (issued svc (Handler env svc request)) = 0 := by
  have hf := findByLongUrl_of_many env body.LongUrl svc hb hsc hm
  have hH := Handler_of_lookup_error env svc _ request body _ _ hd hs hf
  refine ⟨by rw [hf], hH, rfl, ?_, ?_⟩
  · rw [hH]; exact issued_afterScan _ _ _ _
  · rw [hH, issued_afterScan]; rfl

/-- The C4 theorem on a table with two records for the submitted URL. -/
theorem Handler_ambiguous_witness :
    Handler sampleEnv ambiguousTable sampleRequest
      = .returned ⟨404, [], [], "Found more than one entry", false⟩ none
          (afterScan ambiguousTable "https://example.com/a") :=
  (Handler_ambiguous sampleEnv ambiguousTable sampleRequest ⟨"https://example.com/a"⟩
    (by decide) (by decide) (by decide) (by decide) (by decide)).2.1

/-- C3, as the code has it: when the scan finds exactly one record, the record
decodes and its `ShortUrl` is not empty, `Handler` answers 200 with that
`ShortUrl`, and the only operation issued is the scan: no write, the records of
the table unchanged. -/
theorem Handler_hit (env : Env) (svc : DynamoDB) (request : Request)
    (body : RequestBody) (r : Item)
    (hd : jsonUnmarshal request.Body { LongUrl := "" } = .ok body)
    (hs : env.sessionErr = none) (hb : env.buildErr = none) (hsc : env.scanErr = none)
    (hu : env.unmarshalErr = none)
    (hm : matching body.LongUrl svc.items = [r]) (hne : r.ShortUrl ≠ "") :
    Handler env svc request
      = .returned ⟨200, [("Content-Type", "application/json")], [], r.ShortUrl, false⟩ none
          (afterScan svc body.LongUrl) ∧
    (afterScan svc body.LongUrl).items = svc.items ∧
    issued svc (Handler env svc request) = [StoreCall.scan TABLE body.LongUrl] ∧
    putCount (issued svc (Handler env svc request)) = 0 := by
  have hf := findByLongUrl_of_one env body.LongUrl svc r hb hsc hm hu
  have hH := Handler_of_found env svc _ request body r hd hs hf hne
  refine ⟨hH, rfl, ?_, ?_⟩
  · rw [hH]; exact issued_afterScan _ _ _ _
  · rw [hH, issued_afterScan]; rfl

/-- The amended C3 theorem on a table holding one complete record. -/
theorem Handler_hit_witness :
    Handler sampleEnv filledTable sampleRequest
      = .returned ⟨200, [("Content-Type", "application/json")], [],
          "01HF7YAT00000APN59HKNHY2PJ", false⟩ none
          (afterScan filledTable "https://example.com/a") :=
  (Handler_hit sampleEnv filledTable sampleRequest ⟨"https://example.com/a"⟩
    ⟨"https://example.com/a", "01HF7YAT00000APN59HKNHY2PJ"⟩
    (by decide) (by decide) (by decide) (by decide) (by decide) (by decide) (by decide)).1

/-- C3 as stated fails: the scan finds exactly one record, yet `Handler` does
not answer with that record's (empty) `ShortUrl`; it generates an identifier and
writes a record, which replaces the one found. -/
theorem Handler_hit_fails_on_blank_record :
    sampleEnv.succeeds ∧
    jsonUnmarshal sampleRequest.Body { LongUrl := "" } = .ok ⟨"https://example.com/a"⟩ ∧
    matching "https://example.com/a" blankTable.items = [⟨"https://example.com/a", ""⟩] ∧
    Handler sampleEnv blankTable sampleRequest
      = .returned (successResponse "01HF7YAT00000APN59HKNHY2PJ") none
          ⟨KeySchema.longUrl,
            [⟨"https://example.com/a", "01HF7YAT00000APN59HKNHY2PJ"⟩],
            [StoreCall.scan TABLE "https://example.com/a",
             StoreCall.putItem TABLE
               ⟨"https://example.com/a", "01HF7YAT00000APN59HKNHY2PJ"⟩]⟩ ∧
    putCount (issued blankTable (Handler sampleEnv blankTable sampleRequest)) = 1 := by
  decide

theorem matching_append (url : String) (xs ys : List Item) :
    matching url (xs ++ ys) = matching url xs ++ matching url ys := by
  simp [matching]

theorem matching_filter_of_nil (url : String) (xs : List Item) (p : Item → Bool)
    (h : matching url xs = []) : matching url (xs.filter p) = [] := by
  simp only [matching, List.filter_eq_nil_iff] at *
  intro a ha
  exact h a (List.mem_of_mem_filter ha)

/-- C5, as the code has it: for a long URL with no record in the table, with
no outside call failing and, in a table keyed by the short identifier alone, no
stored record already carrying the generated identifier, `Handler` answers 200
with the 26 character ULID `generateUlid` produced, and the table afterwards is
the table before plus the one record `(L, S)`. -/
theorem Handler_new_key (env : Env) (svc : DynamoDB) (request : Request)
    (body : RequestBody)
    (hd : jsonUnmarshal request.Body { LongUrl := "" } = .ok body)
    (hok : env.succeeds)
    (hm : matching body.LongUrl svc.items = [])
    (hfresh : svc.keySchema = KeySchema.shortUrl →
      ∀ r ∈ svc.items, r.ShortUrl ≠ ulidString env.now env.entropy) :
    ∃ S, generateUlid env = .ok S ∧ S ≠ "" ∧ S.length = 26 ∧
      Handler env svc request
        = .returned ⟨200, [("Content-Type", "application/json")], [], S, false⟩ none
            ⟨svc.keySchema, svc.items ++ [⟨body.LongUrl, S⟩],
              svc.calls ++ [StoreCall.scan TABLE body.LongUrl,
                StoreCall.putItem TABLE ⟨body.LongUrl, S⟩]⟩ := by
  obtain ⟨hs, hb, hsc, _, hp, ht⟩ := hok
  have ht1 : ¬ env.now > maxTime := Nat.not_lt.mpr ht
  refine ⟨ulidString env.now env.entropy, by simp [generateUlid, ht1],
    ulidString_ne_empty _ _, ulidString_length _ _, ?_⟩
  have hf := findByLongUrl_of_none env body.LongUrl svc hb hsc hm
  rw [Handler_of_put env svc request body _ hd hs hf rfl ht hp]
  have hlong : ∀ r ∈ svc.items, r.LongUrl ≠ body.LongUrl := by
    intro r hr hrl
    have : r ∈ matching body.LongUrl svc.items := (mem_matching _ _ _).2 ⟨hr, hrl⟩
    rw [hm] at this
    cases this
  have hk : ∀ r ∈ svc.items,
      svc.keySchema.sameKey ⟨body.LongUrl, ulidString env.now env.entropy⟩ r = false := by
    intro r hr
    have h1 : body.LongUrl ≠ r.LongUrl := fun h => hlong r hr h.symm
    cases hks : svc.keySchema with
    | longUrl => simp [KeySchema.sameKey, h1]
    | shortUrl =>
      have h2 := hfresh hks r hr
      simp [KeySchema.sameKey, Ne.symm h2]
    | longAndShortUrl => simp [KeySchema.sameKey, h1]
  have hfil : (svc.items.filter fun r =>
      !svc.keySchema.sameKey ⟨body.LongUrl, ulidString env.now env.entropy⟩ r) = svc.items := by
    rw [List.filter_eq_self]
    intro r hr
    simp [hk r hr]
  simp [afterWrite, successResponse, hfil]

/-- The amended C5 theorem at the sample request on the empty table. -/
theorem Handler_new_key_witness :
    ∃ S, generateUlid sampleEnv = .ok S ∧ S ≠ "" ∧ S.length = 26 ∧
      Handler sampleEnv emptyTable sampleRequest
        = .returned ⟨200, [("Content-Type", "application/json")], [], S, false⟩ none
            ⟨emptyTable.keySchema, emptyTable.items ++ [⟨"https://example.com/a", S⟩],
              emptyTable.calls ++ [StoreCall.scan TABLE "https://example.com/a",
                StoreCall.putItem TABLE ⟨"https://example.com/a", S⟩]⟩ :=
  Handler_new_key sampleEnv emptyTable sampleRequest ⟨"https://example.com/a"⟩
    (by decide) (by decide) (by decide) (by decide)

/-- C5 as stated fails: no record of the table has the submitted long URL and
no call fails, yet the table afterwards is not the table before plus one
record: the new record replaced the record stored under the same short
identifier, and the table still holds a single record. -/
theorem Handler_new_key_overwrites :
    sampleEnv.succeeds ∧
    jsonUnmarshal sampleRequest.Body { LongUrl := "" } = .ok ⟨"https://example.com/a"⟩ ∧
    matching "https://example.com/a" collidingTable.items = [] ∧
    Handler sampleEnv collidingTable sampleRequest
      = .returned (successResponse "01HF7YAT00000APN59HKNHY2PJ") none
          ⟨KeySchema.shortUrl,
            [⟨"https://example.com/a", "01HF7YAT00000APN59HKNHY2PJ"⟩],
            [StoreCall.scan TABLE "https://example.com/a",
             StoreCall.putItem TABLE
               ⟨"https://example.com/a", "01HF7YAT00000APN59HKNHY2PJ"⟩]⟩ ∧
    (Handler sampleEnv collidingTable sampleRequest).service.items
      ≠ collidingTable.items ++ [⟨"https://example.com/a", "01HF7YAT00000APN59HKNHY2PJ"⟩] := by
  decide

theorem matching_filter_longUrl (url : String) (xs : List Item) (short : String) :
    matching url (xs.filter fun r => !KeySchema.longUrl.sameKey ⟨url, short⟩ r) = [] := by
  simp only [matching, List.filter_filter, List.filter_eq_nil_iff]
  intro r _
  simp only [KeySchema.sameKey, Bool.and_eq_true, Bool.not_eq_true', beq_iff_eq, not_and,
    beq_eq_false_iff_ne, ne_eq, Decidable.not_not]
  intro h
  exact h.symm

/-- C1: for every long URL `L` and every state of the table with at most one
record for `L`, no outside call failing, two invocations in sequence on a body
decoding to `L` answer 200 with the same body, and the table then holds exactly
one record for `L`, the one pairing `L` with that body.  The states are those a
table can be in, each record carrying its key attributes; a record without a
short identifier, possible in a table keyed by the long URL, is replaced by the
first invocation. -/
theorem Handler_idempotent (env1 env2 : Env) (svc : DynamoDB) (request : Request)
    (body : RequestBody)
    (hd : jsonUnmarshal request.Body { LongUrl := "" } = .ok body)
    (h1 : env1.succeeds) (h2 : env2.succeeds)
    (hv : svc.valid)
    (hm : (matching body.LongUrl svc.items).length ≤ 1) :
    ∃ S svc1 svc2,
      Handler env1 svc request
        = .returned ⟨200, [("Content-Type", "application/json")], [], S, false⟩ none svc1 ∧
      Handler env2 svc1 request
        = .returned ⟨200, [("Content-Type", "application/json")], [], S, false⟩ none svc2 ∧
      matching body.LongUrl svc2.items = [⟨body.LongUrl, S⟩] := by
  obtain ⟨hs1, hb1, hsc1, hu1, hp1, ht1⟩ := h1
  obtain ⟨hs2, hb2, hsc2, hu2, _, _⟩ := h2
  have miss : ∀ item : Item,
      findByLongUrl env1 body.LongUrl svc = ((item, none), afterScan svc body.LongUrl) →
      item.ShortUrl = "" →
      matching body.LongUrl
          (afterWrite svc ⟨body.LongUrl, ulidString env1.now env1.entropy⟩).items
        = [⟨body.LongUrl, ulidString env1.now env1.entropy⟩] →
      ∃ S svc1 svc2,
        Handler env1 svc request
          = .returned ⟨200, [("Content-Type", "application/json")], [], S, false⟩ none svc1 ∧
        Handler env2 svc1 request
          = .returned ⟨200, [("Content-Type", "application/json")], [], S, false⟩ none svc2 ∧
        matching body.LongUrl svc2.items = [⟨body.LongUrl, S⟩] := by
    intro item hf he hm1
    have hH1 := Handler_of_put env1 svc request body item hd hs1 hf he ht1 hp1
    have hf2 := findByLongUrl_of_one env2 body.LongUrl _ _ hb2 hsc2 hm1 hu2
    have hH2 := Handler_of_found env2 _ _ request body _ hd hs2 hf2
      (ulidString_ne_empty _ _)
    exact ⟨_, _, _, hH1, hH2, hm1⟩
  match hmm : matching body.LongUrl svc.items with
  | [] =>
    refine miss _ (findByLongUrl_of_none env1 body.LongUrl svc hb1 hsc1 hmm) rfl ?_
    simp only [afterWrite]
    rw [matching_append, matching_filter_of_nil _ _ _ hmm]
    simp [matching]
  | [r] =>
    have hrm : r ∈ matching body.LongUrl svc.items := by rw [hmm]; simp
    obtain ⟨hrin, hrl⟩ := (mem_matching _ _ _).1 hrm
    have hf := findByLongUrl_of_one env1 body.LongUrl svc r hb1 hsc1 hmm hu1
    by_cases hr : r.ShortUrl = ""
    · have hks : svc.keySchema = KeySchema.longUrl := by
        have hadm := hv r hrin
        cases hk : svc.keySchema with
        | longUrl => rfl
        | shortUrl => rw [hk] at hadm; exact absurd hr hadm
        | longAndShortUrl => rw [hk] at hadm; exact absurd hr hadm.2
      refine miss r hf hr ?_
      simp only [afterWrite]
      rw [matching_append, hks, matching_filter_longUrl]
      simp [matching]
    · have hH1 := Handler_of_found env1 svc _ request body r hd hs1 hf hr
      have hm1 : matching body.LongUrl (afterScan svc body.LongUrl).items = [r] := hmm
      have hf2 := findByLongUrl_of_one env2 body.LongUrl _ r hb2 hsc2 hm1 hu2
      have hH2 := Handler_of_found env2 _ _ request body r hd hs2 hf2 hr
      refine ⟨r.ShortUrl, _, _, hH1, hH2, ?_⟩
      show matching body.LongUrl svc.items = _
      rw [hmm, ← hrl]
  | a :: b :: rest =>
    rw [hmm] at hm
    simp at hm

/-- The C1 theorem on a table keyed by the long URL whose record for the
submitted URL has no short identifier yet: the first invocation writes the
record anew, the second finds it. -/
theorem Handler_idempotent_witness :
    ∃ S svc1 svc2,
      Handler sampleEnv blankTable sampleRequest
        = .returned ⟨200, [("Content-Type", "application/json")], [], S, false⟩ none svc1 ∧
      Handler laterEnv svc1 sampleRequest
        = .returned ⟨200, [("Content-Type", "application/json")], [], S, false⟩ none svc2 ∧
      matching "https://example.com/a" svc2.items = [⟨"https://example.com/a", S⟩] :=
  Handler_idempotent sampleEnv laterEnv blankTable sampleRequest ⟨"https://example.com/a"⟩
    (by decide) (by decide) (by decide) (by decide) (by decide)

/-! ## Decoding the request body -/

theorem decodeMembers_saved (ms : List (String × Json)) (v : RequestBody) (m : String) :
    (decodeMembers ms v (some m)).2 = some m := by
  induction ms generalizing v with
  | nil => rfl
  | cons kv rest ih =>
    obtain ⟨key, value⟩ := kv
    unfold decodeMembers
    split
    · cases value <;> simp [ih, Option.orElse]
    · exact ih v

theorem decodeMembers_none_iff (ms : List (String × Json)) (v : RequestBody) :
    (decodeMembers ms v none).2 = none ↔
      ∀ kv ∈ ms, matchesUrlField kv.1 = true → kv.2.unfitForString = false := by
  induction ms generalizing v with
  | nil => simp [decodeMembers]
  | cons kv rest ih =>
    obtain ⟨key, value⟩ := kv
    unfold decodeMembers
    by_cases hk : matchesUrlField key = true
    · cases value <;>
        simp [hk, ih, Option.orElse, Json.unfitForString, decodeMembers_saved]
    · simp [hk, ih]

theorem jsonUnmarshal_error_iff (data : String) (v : RequestBody) :
    (∃ e, jsonUnmarshal data v = .error e) ↔ Rejected (parseJson data) := by
  unfold jsonUnmarshal
  cases hp : parseJson data with
  | error m => simp [Rejected]
  | ok j =>
    cases j with
    | object members =>
      have hiff := decodeMembers_none_iff members v
      rcases hdm : decodeMembers members v none with ⟨v1, saved⟩
      rw [hdm] at hiff
      cases saved with
      | none =>
        simp only [Rejected, hdm]
        constructor
        · rintro ⟨e, he⟩; cases he
        · rintro ⟨kv, hkv, hm, hu⟩
          have := hiff.1 rfl kv hkv hm
          rw [this] at hu; cases hu
      | some m =>
        simp only [Rejected, hdm]
        constructor
        · intro _
          by_contra hno
          have : (some m : Option String) = none := hiff.2 (by
            intro kv hkv hm
            by_contra hu
            exact hno ⟨kv, hkv, hm, by simpa using hu⟩)
          cases this
        · intro _; exact ⟨m, rfl⟩
    | null => simp [Rejected]
    | bool b => simp [Rejected]
    | number => simp [Rejected]
    | string s => simp [Rejected]
    | array a => simp [Rejected]

/-- C9, as the code has it: decoding into `RequestBody` fails exactly for a body
that is not JSON, a JSON value that is neither an object nor null, and an object
whose member `url` holds neither a string nor null; whenever it fails, `Handler`
answers 404 with the decoder's message and issues no operation against the
table. -/
theorem Handler_decode_failure (env : Env) (svc : DynamoDB) (request : Request) :
    ((∃ e, jsonUnmarshal request.Body { LongUrl := "" } = .error e)
      ↔ Rejected (parseJson request.Body)) ∧
    (∀ e, jsonUnmarshal request.Body { LongUrl := "" } = .error e →
      Handler env svc request = .returned ⟨404, [], [], e, false⟩ none svc ∧
      issued svc (Handler env svc request) = []) := by
  refine ⟨jsonUnmarshal_error_iff _ _, fun e he => ?_⟩
  have hH := Handler_of_decode_error env svc request e he
  refine ⟨hH, ?_⟩
  rw [hH]
  exact issued_self _ _ _

/-- The amended C9 theorem at a body that is not JSON. -/
theorem Handler_decode_failure_witness :
    Handler sampleEnv emptyTable malformedRequest
        = .returned ⟨404, [], [],
            "invalid character 'o' in literal null (expecting 'u')", false⟩ none emptyTable ∧
      issued emptyTable (Handler sampleEnv emptyTable malformedRequest) = [] :=
  (Handler_decode_failure sampleEnv emptyTable malformedRequest).2 _ (by decide)

theorem parseJson_emptyObject : parseJson emptyObjectRequest.Body = .ok (Json.object []) := by
  rfl

/-- C9 as stated fails: the body is a JSON object without a member `url`, so not
of the shape the claim requires, yet it decodes, to the empty long URL, and
`Handler` goes on to the table and answers 200. -/
theorem Handler_accepts_object_without_url :
    ¬ HasUrlShape emptyObjectRequest.Body ∧
    jsonUnmarshal emptyObjectRequest.Body { LongUrl := "" } = .ok ⟨""⟩ ∧
    Handler sampleEnv emptyTable emptyObjectRequest
      = .returned (successResponse "01HF7YAT00000APN59HKNHY2PJ") none
          (afterWrite emptyTable ⟨"", "01HF7YAT00000APN59HKNHY2PJ"⟩) ∧
    issued emptyTable (Handler sampleEnv emptyTable emptyObjectRequest)
      = [StoreCall.scan TABLE "", StoreCall.putItem TABLE ⟨"", "01HF7YAT00000APN59HKNHY2PJ"⟩] := by
  refine ⟨?_, by decide, by decide, by decide⟩
  rintro ⟨s, hs⟩
  rw [parseJson_emptyObject] at hs
  cases hs

/-! ## Operations issued against the table -/

theorem issued_of_service_self (svc : DynamoDB) (out : Outcome) (h : out.service = svc) :
    issued svc out = [] := by
  simp [issued, h]

theorem issued_of_service_afterScan (svc : DynamoDB) (out : Outcome) (url : String)
    (h : out.service = afterScan svc url) :
    issued svc out = [StoreCall.scan TABLE url] := by
  simp [issued, h, afterScan]

theorem issued_of_service_afterWrite (svc : DynamoDB) (out : Outcome) (item : Item)
    (h : out.service = afterWrite svc item ∨ out.service = afterRefusedWrite svc item) :
    issued svc out = [StoreCall.scan TABLE item.LongUrl, StoreCall.putItem TABLE item] := by
  rcases h with h | h
  · simp [issued, h, afterWrite]
  · simp [issued, h, afterRefusedWrite]

/-- A lookup that ends empty is followed by a panic of the ULID generator or by
a write. -/
theorem Handler_of_lookupEmpty (env : Env) (svc : DynamoDB) (request : Request)
    (body : RequestBody)
    (hd : jsonUnmarshal request.Body { LongUrl := "" } = .ok body)
    (hs : env.sessionErr = none) (hb : env.buildErr = none) (hsc : env.scanErr = none)
    (hl : lookupEmpty env body.LongUrl svc) :
    (env.now > maxTime ∧
      (Handler env svc request).service = afterScan svc body.LongUrl) ∨
    (env.now ≤ maxTime ∧
      ((Handler env svc request).service
          = afterWrite svc ⟨body.LongUrl, ulidString env.now env.entropy⟩ ∨
       (Handler env svc request).service
          = afterRefusedWrite svc ⟨body.LongUrl, ulidString env.now env.entropy⟩)) := by
  obtain ⟨item, hf, he⟩ := findByLongUrl_of_lookupEmpty env body.LongUrl svc hb hsc hl
  by_cases ht : env.now > maxTime
  · refine Or.inl ⟨ht, ?_⟩
    rw [Handler_of_clock_panic env svc _ request body item hd hs hf he ht]
    rfl
  · have ht1 : env.now ≤ maxTime := Nat.not_lt.mp ht
    refine Or.inr ⟨ht1, ?_⟩
    cases hp : env.putErr with
    | some e =>
      rw [Handler_of_put_error env svc request body item e hd hs hf he ht1 hp]
      exact Or.inr rfl
    | none =>
      rw [Handler_of_put env svc request body item hd hs hf he ht1 hp]
      exact Or.inl rfl

/-- A scan that fails, or a lookup that ends with an error or with a short
identifier, is the only operation of its invocation. -/
theorem Handler_of_lookup_settled (env : Env) (svc : DynamoDB) (request : Request)
    (body : RequestBody)
    (hd : jsonUnmarshal request.Body { LongUrl := "" } = .ok body)
    (hs : env.sessionErr = none) (hb : env.buildErr = none)
    (hn : ¬ (env.scanErr = none ∧ lookupEmpty env body.LongUrl svc)) :
    (Handler env svc request).service = afterScan svc body.LongUrl := by
  rcases findByLongUrl_cases env body.LongUrl svc with ⟨e, hb1, _⟩ | ⟨_, h2⟩
  · rw [hb] at hb1; cases hb1
  · rcases h2 with ⟨e, _, hf⟩ | ⟨hsc, h3⟩
    · rw [Handler_of_lookup_error env svc _ request body _ e hd hs hf]; rfl
    · rcases h3 with ⟨_, hf⟩ | ⟨hm, _⟩ | ⟨r, hm, h4⟩
      · rw [Handler_of_lookup_error env svc _ request body _ _ hd hs hf]; rfl
      · exact absurd ⟨hsc, Or.inl hm⟩ hn
      · rcases h4 with ⟨e, _, hf⟩ | ⟨hu, hf⟩
        · rw [Handler_of_lookup_error env svc _ request body _ e hd hs hf]; rfl
        · by_cases hr : r.ShortUrl = ""
          · exact absurd ⟨hsc, Or.inr ⟨r, hm, hu, hr⟩⟩ hn
          · rw [Handler_of_found env svc _ request body r hd hs hf hr]; rfl

/-- C8, as the code has it: an invocation issues no operation when the body
does not decode, the session cannot be created or the filter cannot be built;
otherwise it issues exactly one scan, followed by exactly one write when, and
only when, the scan succeeded, the lookup ended empty (no record matched, or the
one that matched has an empty `ShortUrl`) and an identifier was generated. -/
theorem Handler_store_operations (env : Env) (svc : DynamoDB) (request : Request) :
    (scanCount (issued svc (Handler env svc request)) ≤ 1 ∧
      putCount (issued svc (Handler env svc request))
        ≤ scanCount (issued svc (Handler env svc request))) ∧
    ((issued svc (Handler env svc request) = [] ∧
      ((∃ e, jsonUnmarshal request.Body { LongUrl := "" } = .error e) ∨
        env.sessionErr ≠ none ∨ env.buildErr ≠ none)) ∨
    (∃ body, jsonUnmarshal request.Body { LongUrl := "" } = .ok body ∧
      env.sessionErr = none ∧ env.buildErr = none ∧
      ((issued svc (Handler env svc request) = [StoreCall.scan TABLE body.LongUrl] ∧
          ¬ (env.scanErr = none ∧ lookupEmpty env body.LongUrl svc ∧ env.now ≤ maxTime)) ∨
       (issued svc (Handler env svc request)
            = [StoreCall.scan TABLE body.LongUrl,
               StoreCall.putItem TABLE ⟨body.LongUrl, ulidString env.now env.entropy⟩] ∧
          env.scanErr = none ∧ lookupEmpty env body.LongUrl svc ∧ env.now ≤ maxTime)))) := by
  have main : (issued svc (Handler env svc request) = [] ∧
      ((∃ e, jsonUnmarshal request.Body { LongUrl := "" } = .error e) ∨
        env.sessionErr ≠ none ∨ env.buildErr ≠ none)) ∨
    (∃ body, jsonUnmarshal request.Body { LongUrl := "" } = .ok body ∧
      env.sessionErr = none ∧ env.buildErr = none ∧
      ((issued svc (Handler env svc request) = [StoreCall.scan TABLE body.LongUrl] ∧
          ¬ (env.scanErr = none ∧ lookupEmpty env body.LongUrl svc ∧ env.now ≤ maxTime)) ∨
       (issued svc (Handler env svc request)
            = [StoreCall.scan TABLE body.LongUrl,
               StoreCall.putItem TABLE ⟨body.LongUrl, ulidString env.now env.entropy⟩] ∧
          env.scanErr = none ∧ lookupEmpty env body.LongUrl svc ∧ env.now ≤ maxTime))) := by
    cases hd : jsonUnmarshal request.Body { LongUrl := "" } with
    | error e =>
      refine Or.inl ⟨?_, Or.inl ⟨e, rfl⟩⟩
      rw [Handler_of_decode_error env svc request e hd]
      exact issued_self _ _ _
    | ok body =>
      cases hs : env.sessionErr with
      | some e =>
        refine Or.inl ⟨?_, Or.inr (Or.inl (by simp))⟩
        rw [Handler_of_session_error env svc request body e hd hs]
        exact issued_of_service_self _ _ rfl
      | none =>
        cases hb : env.buildErr with
        | some e =>
          refine Or.inl ⟨?_, Or.inr (Or.inr (by simp))⟩
          rw [Handler_of_lookup_error env svc svc request body _ e hd hs
            (findByLongUrl_of_build_error env body.LongUrl svc e hb)]
          exact issued_self _ _ _
        | none =>
          refine Or.inr ⟨body, rfl, rfl, rfl, ?_⟩
          by_cases hl : env.scanErr = none ∧ lookupEmpty env body.LongUrl svc
          · rcases Handler_of_lookupEmpty env svc request body hd hs hb hl.1 hl.2 with
              ⟨ht, hsv⟩ | ⟨ht, hsv⟩
            · exact Or.inl ⟨issued_of_service_afterScan _ _ _ hsv,
                fun h => absurd h.2.2 (Nat.not_le.mpr ht)⟩
            · exact Or.inr ⟨issued_of_service_afterWrite _ _ _ hsv, hl.1, hl.2, ht⟩
          · exact Or.inl ⟨issued_of_service_afterScan _ _ _
                (Handler_of_lookup_settled env svc request body hd hs hb hl),
              fun h => hl ⟨h.1, h.2.1⟩⟩
  refine ⟨?_, main⟩
  rcases main with ⟨h, _⟩ | ⟨body, _, _, _, ⟨h, _⟩ | ⟨h, _⟩⟩ <;>
    rw [h] <;> simp [scanCount, putCount]

/-- The amended C8 theorem at the sample request on the empty table: the
invocation issues one scan and then one write. -/
theorem Handler_store_operations_witness :
    issued emptyTable (Handler sampleEnv emptyTable sampleRequest)
      = [StoreCall.scan TABLE "https://example.com/a",
         StoreCall.putItem TABLE ⟨"https://example.com/a", "01HF7YAT00000APN59HKNHY2PJ"⟩] ∧
    (scanCount (issued emptyTable (Handler sampleEnv emptyTable sampleRequest)) ≤ 1 ∧
      putCount (issued emptyTable (Handler sampleEnv emptyTable sampleRequest))
        ≤ scanCount (issued emptyTable (Handler sampleEnv emptyTable sampleRequest))) :=
  ⟨by decide, (Handler_store_operations sampleEnv emptyTable sampleRequest).1⟩

/-- C8 as stated fails twice: an invocation whose body does not decode issues no
scan at all; and an invocation whose scan matched one record, with an empty
`ShortUrl`, issues a write although the lookup did not find zero records. -/
theorem Handler_read_not_always_issued :
    scanCount (issued emptyTable (Handler sampleEnv emptyTable malformedRequest)) = 0 ∧
    (matching "https://example.com/a" blankTable.items).length = 1 ∧
    putCount (issued blankTable (Handler sampleEnv blankTable sampleRequest)) = 1 := by
  decide

end Shorten
